import Mathlib

/-!
Shallow embedding, in Lean 4, of the deterministic investigation-and-correlation
core of the SplunkAgent repository, together with theorems settling the
specification claims about it.

Conventions used throughout:
* Python strings are Lean `String`s; Python's `str.lower()`, substring test
  (`x in s`) and lexicographic comparison are re-implemented below on the
  character list so that they evaluate by kernel reduction.
* Python floats that carry scores/weights are modelled as exact rationals `ℚ`.
  Python's `round(x, 2)` (round-half-to-even) is modelled exactly on `ℚ`.
* Python dicts that are used as ordered key/value maps are modelled as
  association lists in insertion order; `dict.get(k, d)` is `alookup` with a
  default.  Python's stable `sort`/`sorted` is modelled with
  `List.insertionSort`, which is stable and produces the same list as any
  stable sort for a total preorder.
-/

/-! ## String helpers (Python `lower`, `in`, `<`, slices) -/

/-- Python `str.lower()` (per-character lowercasing). -/
def lowerStr (s : String) : String := ⟨s.data.map Char.toLower⟩

/-- Lexicographic `<` on character lists by code point, as Python compares strings. -/
def charListLt : List Char → List Char → Bool
  | _, [] => false
  | [], _ :: _ => true
  | a :: as, b :: bs =>
    if a.toNat < b.toNat then true
    else if b.toNat < a.toNat then false
    else charListLt as bs

/-- Python `a < b` on strings. -/
def strLt (a b : String) : Bool := charListLt a.data b.data

/-- Does `hay` begin with `needle`? (helper for the substring test). -/
def beginsWith : List Char → List Char → Bool
  | [], _ => true
  | _ :: _, [] => false
  | a :: as, b :: bs => a == b && beginsWith as bs

/-- Substring occurrence on character lists. -/
def containsSub (hay needle : List Char) : Bool :=
  match hay with
  | [] => needle.isEmpty
  | _ :: t => beginsWith needle hay || containsSub t needle

/-- Python `needle in hay` on strings. -/
def strContains (hay needle : String) : Bool := containsSub hay.data needle.data

/-- Python slice `s[:n]`. -/
def strTake (s : String) (n : Nat) : String := ⟨s.data.take n⟩

/-! ## Association-list helpers (Python dict semantics) -/

/-- Lookup by key in an insertion-ordered association list (Python `d[k]` / `d.get(k)`). -/
def alookup {β : Type} (k : String) : List (String × β) → Option β
  | [] => none
  | (k', v) :: t => if k' = k then some v else alookup k t

/-- First-occurrence deduplication, i.e. the key order of a Python dict built by
insertion (also Python `set` membership filtering in encounter order). -/
def firstDedup {α : Type} [DecidableEq α] (seen : List α) : List α → List α
  | [] => []
  | a :: t => if a ∈ seen then firstDedup seen t else a :: firstDedup (a :: seen) t

/-- Python `max(l, key=f)`: the first element attaining the maximum (later
elements replace the current best only when strictly greater). -/
def pyMaxBy {α : Type} (f : α → Nat) : List α → Option α
  | [] => none
  | x :: t => some (t.foldl (fun best y => if f best < f y then y else best) x)

/-! ## Exact model of Python `round(x, 2)` on rationals -/

/-- Round half to even, to an integer. -/
def roundHalfEven (x : ℚ) : ℤ :=
  let f := ⌊x⌋
  let r := x - (f : ℚ)
  if r < 1/2 then f
  else if 1/2 < r then f + 1
  else if f % 2 = 0 then f else f + 1

/-- Python `round(x, 2)` on an exact rational. -/
def round2 (x : ℚ) : ℚ := (roundHalfEven (x * 100) : ℚ) / 100

/-! ## Confidence scorer data model (src/evidence/confidence.py)

An evidence item as consumed by the scorer: only `relevance_score` and
`service` are read by the scorer (`e.get("relevance_score", …)`,
`e.get("service")`); a missing key is `none`. -/

structure EvidenceItem where
  relevance_score : Option ℚ := none
  service : Option String := none
deriving Repr, DecidableEq

/-- One supporting-evidence detail entry.  The source attaches further ad-hoc
keys (`count`, `similarity`, …) that nothing downstream reads; the three keys
read by `_dedupe_evidence` and the claims are modelled. -/
structure SupportDetail where
  dtype : String
  finding : String
  impact : String
deriving Repr, DecidableEq

/-- Type-specific evidence payload of a root cause, merged over the four shapes
the RCA engine produces; absent keys behave as the defaults, matching
`rc.get("evidence", {}).get(…, default)`. -/
structure RCEvidence where
  cascade_chain : List (String × String) := []
  affected_services : List String := []
  failure_modes : List String := []
  downstream_affected : String := ""
  timestamp : Option String := none
  error_count : Int := 0
  samples : List String := []
deriving Repr, DecidableEq

/-- A root cause as produced by `RCAEngine._rank_root_causes` and consumed by
the confidence scorer (`rc.get("type")`, `rc.get("confidence", 0)`, …). -/
structure RootCause where
  description : String
  service : String
  confidence : ℚ
  rc_type : String
  evidence : RCEvidence := {}
deriving Repr, DecidableEq

/-- An event inside one transaction-correlation group (`_assess_temporal_correlation`
reads only `e.get("service")`). -/
structure TxEvent where
  service : Option String := none
deriving Repr, DecidableEq

/-- A historical match (`_assess_historical_match` reads `similarity` and
`historical_resolution`). -/
structure HistMatch where
  similarity : ℚ := 0
  historical_resolution : String := ""
deriving Repr, DecidableEq

/-- The correlation bundle the scorer consumes.  Temporal clusters are only
counted, never inspected, so their payload is irrelevant here. -/
structure Correlations where
  transaction_correlations : List (String × List TxEvent) := []
  temporal_correlations : List Unit := []
  historical_matches : List HistMatch := []
deriving Repr, DecidableEq

/-- An investigation step as the scorer sees it: only `s.get("findings")`
emptiness is read (`_assess_pattern_consistency`). -/
structure ScorerStep where
  findings_count : Nat := 0
deriving Repr, DecidableEq

/-- One factor entry of the `factors` map. -/
structure FactorEntry where
  score : ℚ
  weight : ℚ
  weighted_score : ℚ
  details : List SupportDetail
deriving Repr, DecidableEq

/-- The result of `calculate_confidence` (the generated reasoning text is not
modelled: no claim refers to it and nothing reads it back). -/
structure ConfidenceResult where
  score : ℚ
  level : String
  evidence_quality : FactorEntry
  evidence_quantity : FactorEntry
  pattern_consistency : FactorEntry
  service_correlation : FactorEntry
  temporal_correlation : FactorEntry
  historical_match : FactorEntry
  supporting_evidence : List SupportDetail
deriving Repr, DecidableEq

namespace ConfidenceScorer

/-- Fixed factor weights (`ConfidenceScorer.WEIGHTS`). -/
def weight_evidence_quality : ℚ := 0.25
def weight_evidence_quantity : ℚ := 0.15
def weight_pattern_consistency : ℚ := 0.20
def weight_service_correlation : ℚ := 0.15
def weight_temporal_correlation : ℚ := 0.10
def weight_historical_match : ℚ := 0.15

/-- Two-decimal rendering of a rational, mirroring Python `f"{x:.2f}"` on the
score values (used only inside human-readable finding strings). -/
def fmt2 (x : ℚ) : String :=
  let cents := roundHalfEven (x * 100)
  let sign := if cents < 0 then "-" else ""
  let a := cents.natAbs
  sign ++ toString (a / 100) ++ "." ++
    (let r := a % 100
     (if r < 10 then "0" else "") ++ toString r)

/-- Percent rendering of a rational, mirroring Python `f"{x:.0%}"` (used only
inside human-readable finding strings). -/
def fmtPct (x : ℚ) : String := toString (roundHalfEven (x * 100)) ++ "%"

/-- `ConfidenceScorer._assess_evidence_quality`. -/
def assess_evidence_quality (evidence : List EvidenceItem) : ℚ × List SupportDetail :=
  if evidence.isEmpty then
    (0, [{ dtype := "quality", finding := "No evidence found", impact := "negative" }])
  else
    let total_relevance := (evidence.map (fun e => e.relevance_score.getD 0.5)).sum
    let avg_relevance := total_relevance / evidence.length
    let high_quality_count := evidence.countP (fun e => 0.7 ≤ e.relevance_score.getD 0)
    let high_quality_ratio := (high_quality_count : ℚ) / evidence.length
    let score := avg_relevance * 0.6 + high_quality_ratio * 0.4
    (score,
      [{ dtype := "quality",
         finding := toString high_quality_count ++ " high-relevance items (avg: " ++
           fmt2 avg_relevance ++ ")",
         impact := if 0.7 ≤ avg_relevance then "positive"
           else if 0.5 ≤ avg_relevance then "neutral" else "negative" }])

/-- `ConfidenceScorer._assess_evidence_quantity`. -/
def assess_evidence_quantity (evidence : List EvidenceItem) : ℚ × List SupportDetail :=
  let count := evidence.length
  let (score, finding, impact) : ℚ × String × String :=
    if count = 0 then (0, "No evidence items found", "negative")
    else if count ≤ 2 then (0.3, "Limited evidence (" ++ toString count ++ " items)", "negative")
    else if count ≤ 5 then (0.6, "Moderate evidence (" ++ toString count ++ " items)", "neutral")
    else if count ≤ 10 then
      (0.85, "Good evidence coverage (" ++ toString count ++ " items)", "positive")
    else (1, "Extensive evidence (" ++ toString count ++ " items)", "positive")
  (score, [{ dtype := "quantity", finding := finding, impact := impact }])

/-- Count per service of the service-tagged evidence, a Python dict built by
insertion (`service_counts`). -/
def serviceCounts (services : List String) : List (String × Nat) :=
  services.foldl (fun acc svc =>
    match alookup svc acc with
    | some _ => acc.map (fun p => if p.1 = svc then (p.1, p.2 + 1) else p)
    | none => acc ++ [(svc, 1)]) []

/-- `ConfidenceScorer._assess_pattern_consistency`. -/
def assess_pattern_consistency (evidence : List EvidenceItem)
    (investigation_steps : List ScorerStep) : ℚ × List SupportDetail :=
  if evidence.isEmpty || investigation_steps.isEmpty then
    (0, [{ dtype := "consistency", finding := "Insufficient data", impact := "negative" }])
  else
    let services := evidence.filterMap (fun e =>
      match e.service with
      | some s => if s = "" then none else some s
      | none => none)
    if services.isEmpty then
      (0.3, [{ dtype := "consistency", finding := "No service patterns", impact := "neutral" }])
    else
      let counts := serviceCounts services
      let (score, finding, impact) : ℚ × String × String :=
        match pyMaxBy Prod.snd counts with
        | some dom =>
          let ratio := (dom.2 : ℚ) / services.length
          if 0.6 ≤ ratio then
            (0.9, "Consistent pattern: " ++ dom.1 ++ " (" ++ fmtPct ratio ++ ")", "positive")
          else if 0.4 ≤ ratio then
            (0.6, "Moderate consistency: " ++ dom.1 ++ " (" ++ fmtPct ratio ++ ")", "neutral")
          else (0.3, "Scattered patterns across services", "negative")
        | none => (0.3, "No clear service pattern", "neutral")
      let steps_with_findings := investigation_steps.countP (fun s => 0 < s.findings_count)
      let score := if 2 ≤ steps_with_findings then min (score + 0.1) 1 else score
      (score, [{ dtype := "consistency", finding := finding, impact := impact }])

/-- `ConfidenceScorer._assess_service_correlation`.  `root_causes` is `none`
when the caller passed `None` (or any other falsy value such as `[]` — Python's
`if not root_causes` treats both alike, handled by the `isEmpty` test). -/
def assess_service_correlation (_evidence : List EvidenceItem)
    (root_causes : Option (List RootCause)) : ℚ × List SupportDetail :=
  let rcs := root_causes.getD []
  if rcs.isEmpty then
    (0.5, [{ dtype := "service", finding := "No root cause analysis available",
             impact := "neutral" }])
  else
    let cascade_causes := rcs.filter (fun rc => rc.rc_type = "cascade_origin")
    if ¬ cascade_causes.isEmpty then
      (0.95,
        cascade_causes.filterMap (fun rc =>
          let chain := rc.evidence.cascade_chain
          if chain.isEmpty then none
          else
            let chain_str := String.intercalate " → "
              (chain.map (fun c => c.1 ++ "→" ++ c.2))
            some { dtype := "service",
                   finding := "Cascade failure detected: " ++ chain_str,
                   impact := "positive" }))
    else
      let upstream_causes := rcs.filter (fun rc => rc.rc_type = "upstream_failure")
      if ¬ upstream_causes.isEmpty then
        (0.85,
          upstream_causes.map (fun rc =>
            { dtype := "service", finding := "Upstream failure: " ++ rc.description,
              impact := "positive" }))
      else
        let avg_confidence := (rcs.map (fun rc => rc.confidence)).sum / rcs.length
        (avg_confidence * 0.8,
          [{ dtype := "service",
             finding := "Root causes identified with avg confidence " ++ fmtPct avg_confidence,
             impact := if 0.6 ≤ avg_confidence then "positive" else "neutral" }])

/-- `ConfidenceScorer._assess_temporal_correlation`.  `correlations = none`
models Python `None` (falsy). -/
def assess_temporal_correlation (correlations : Option Correlations) :
    ℚ × List SupportDetail :=
  match correlations with
  | none =>
    (0.5, [{ dtype := "temporal", finding := "No correlation data available",
             impact := "neutral" }])
  | some c =>
    let tx := c.transaction_correlations
    let (score₁, supporting₁) : ℚ × List SupportDetail :=
      if ¬ tx.isEmpty then
        let multi_service_txs := tx.countP (fun g =>
          1 < (firstDedup [] (g.2.map (fun e => e.service))).length)
        if 0 < multi_service_txs then
          (0.5 + 0.3,
            [{ dtype := "temporal",
               finding := "Found " ++ toString multi_service_txs ++
                 " transactions spanning multiple services",
               impact := "positive" }])
        else (0.5, [])
      else (0.5, [])
    let (score₂, supporting₂) : ℚ × List SupportDetail :=
      if ¬ c.temporal_correlations.isEmpty then
        (score₁ + 0.2,
          supporting₁ ++
            [{ dtype := "temporal",
               finding := "Found " ++ toString c.temporal_correlations.length ++
                 " temporally correlated event clusters",
               impact := "positive" }])
      else (score₁, supporting₁)
    let supporting₃ :=
      if supporting₂.isEmpty then
        [{ dtype := "temporal", finding := "Limited temporal correlation data",
           impact := "neutral" }]
      else supporting₂
    (min score₂ 1, supporting₃)

/-- Python `max(historical_matches, key=lambda x: x.get("similarity", 0))`:
the first match attaining the maximal similarity. -/
def bestMatch : List HistMatch → Option HistMatch
  | [] => none
  | x :: t => some (t.foldl (fun best y => if best.similarity < y.similarity then y else best) x)

/-- `ConfidenceScorer._assess_historical_match`. -/
def assess_historical_match (correlations : Option Correlations) :
    ℚ × List SupportDetail :=
  match correlations with
  | none =>
    (0.5, [{ dtype := "historical", finding := "No historical comparison available",
             impact := "neutral" }])
  | some c =>
    match bestMatch c.historical_matches with
    | none =>
      (0.5, [{ dtype := "historical", finding := "No matching historical incidents found",
               impact := "neutral" }])
    | some best =>
      let similarity := best.similarity
      let resolution := best.historical_resolution
      let (score, impact, finding) : ℚ × String × String :=
        if 0.8 ≤ similarity then
          (0.95, "positive", "Strong match (" ++ fmtPct similarity ++ ") with historical incident")
        else if 0.6 ≤ similarity then
          (0.75, "positive", "Moderate match (" ++ fmtPct similarity ++ ") with historical incident")
        else if 0.4 ≤ similarity then
          (0.55, "neutral", "Weak match (" ++ fmtPct similarity ++ ") with historical incident")
        else (0.4, "neutral", "No significant historical matches")
      let supporting : List SupportDetail :=
        [{ dtype := "historical", finding := finding, impact := impact }]
      if resolution ≠ "" ∧ 0.6 ≤ similarity then
        (min (score + 0.05) 1,
          supporting ++
            [{ dtype := "historical",
               finding := "Historical resolution available - can apply known fix",
               impact := "positive" }])
      else (score, supporting)

/-- `ConfidenceScorer._get_confidence_level`: thresholds checked in descending
order of value (`sorted(CONFIDENCE_LEVELS.items(), key=…, reverse=True)`). -/
def get_confidence_level (score : ℚ) : String :=
  if 0.85 ≤ score then "very_high"
  else if 0.70 ≤ score then "high"
  else if 0.50 ≤ score then "medium"
  else if 0.30 ≤ score then "low"
  else if 0 ≤ score then "very_low"
  else "very_low"

/-- `ConfidenceScorer._dedupe_evidence`: keep the first item per
`(type, finding[:50])` key. -/
def dedupe_evidence (seen : List (String × String)) :
    List SupportDetail → List SupportDetail
  | [] => []
  | e :: t =>
    let key := (e.dtype, strTake e.finding 50)
    if key ∈ seen then dedupe_evidence seen t
    else e :: dedupe_evidence (key :: seen) t

/-- `ConfidenceScorer.calculate_confidence`. -/
def calculate_confidence (evidence : List EvidenceItem)
    (investigation_steps : List ScorerStep)
    (root_causes : Option (List RootCause))
    (correlations : Option Correlations) : ConfidenceResult :=
  let (quality_score, quality_evidence) := assess_evidence_quality evidence
  let f₁ : FactorEntry :=
    { score := quality_score, weight := weight_evidence_quality,
      weighted_score := quality_score * weight_evidence_quality, details := quality_evidence }
  let (quantity_score, quantity_evidence) := assess_evidence_quantity evidence
  let f₂ : FactorEntry :=
    { score := quantity_score, weight := weight_evidence_quantity,
      weighted_score := quantity_score * weight_evidence_quantity, details := quantity_evidence }
  let (consistency_score, consistency_evidence) :=
    assess_pattern_consistency evidence investigation_steps
  let f₃ : FactorEntry :=
    { score := consistency_score, weight := weight_pattern_consistency,
      weighted_score := consistency_score * weight_pattern_consistency,
      details := consistency_evidence }
  let (service_score, service_evidence) := assess_service_correlation evidence root_causes
  let f₄ : FactorEntry :=
    { score := service_score, weight := weight_service_correlation,
      weighted_score := service_score * weight_service_correlation, details := service_evidence }
  let (temporal_score, temporal_evidence) := assess_temporal_correlation correlations
  let f₅ : FactorEntry :=
    { score := temporal_score, weight := weight_temporal_correlation,
      weighted_score := temporal_score * weight_temporal_correlation, details := temporal_evidence }
  let (historical_score, historical_evidence) := assess_historical_match correlations
  let f₆ : FactorEntry :=
    { score := historical_score, weight := weight_historical_match,
      weighted_score := historical_score * weight_historical_match,
      details := historical_evidence }
  let final_score :=
    round2 (min (max (f₁.weighted_score + f₂.weighted_score + f₃.weighted_score +
      f₄.weighted_score + f₅.weighted_score + f₆.weighted_score) 0) 1)
  { score := final_score,
    level := get_confidence_level final_score,
    evidence_quality := f₁, evidence_quantity := f₂, pattern_consistency := f₃,
    service_correlation := f₄, temporal_correlation := f₅, historical_match := f₆,
    supporting_evidence := dedupe_evidence []
      (quality_evidence ++ quantity_evidence ++ consistency_evidence ++
        service_evidence ++ temporal_evidence ++ historical_evidence) }

end ConfidenceScorer

/-! ## Claims about the confidence scorer (C1, C5) -/

open ConfidenceScorer

/-- Helper: `round(0.2, 2) = 0.2`. -/
theorem round2_one_fifth : round2 (1/5 : ℚ) = 1/5 := by
  norm_num [round2, roundHalfEven]

/-- C1, counterexample: with zero evidence items (and no steps, root causes or
correlations) the returned score is `0.2`, not `0.0` as the claim states — the
service/temporal/historical factors each default to `0.5`. -/
theorem calculate_confidence_no_evidence_score_is_not_zero :
    (calculate_confidence [] [] none none).score = 0.2 ∧ (0.2 : ℚ) ≠ 0 := by
  constructor
  · show round2 _ = _
    norm_num [assess_evidence_quality, assess_evidence_quantity,
      assess_pattern_consistency, assess_service_correlation,
      assess_temporal_correlation, assess_historical_match,
      weight_evidence_quality, weight_evidence_quantity, weight_pattern_consistency,
      weight_service_correlation, weight_temporal_correlation, weight_historical_match,
      round2, roundHalfEven]
  · norm_num

/-- C1 (amended): for every call to `calculate_confidence` with an empty
evidence list, the `evidence_quantity` factor's details contain the finding
"No evidence items found" regardless of the steps, root causes and correlations
supplied; and when additionally no root causes and no correlations are
supplied, the returned score is `0.2` (not `0.0`) and the level is
`very_low`, regardless of the investigation steps. -/
theorem calculate_confidence_no_evidence (steps : List ScorerStep)
    (rcs : Option (List RootCause)) (cors : Option Correlations) :
    (∃ d ∈ (calculate_confidence [] steps rcs cors).evidence_quantity.details,
        d.finding = "No evidence items found") ∧
      (calculate_confidence [] steps none none).score = 0.2 ∧
      (calculate_confidence [] steps none none).level = "very_low" := by
  refine ⟨⟨{ dtype := "quantity", finding := "No evidence items found",
             impact := "negative" }, ?_, rfl⟩, ?_, ?_⟩
  · simp [calculate_confidence, assess_evidence_quantity]
  · show round2 _ = _
    norm_num [assess_evidence_quality, assess_evidence_quantity,
      assess_pattern_consistency, assess_service_correlation,
      assess_temporal_correlation, assess_historical_match,
      weight_evidence_quality, weight_evidence_quantity, weight_pattern_consistency,
      weight_service_correlation, weight_temporal_correlation, weight_historical_match,
      round2, roundHalfEven]
  · show get_confidence_level (round2 _) = _
    norm_num [assess_evidence_quality, assess_evidence_quantity,
      assess_pattern_consistency, assess_service_correlation,
      assess_temporal_correlation, assess_historical_match,
      weight_evidence_quality, weight_evidence_quantity, weight_pattern_consistency,
      weight_service_correlation, weight_temporal_correlation, weight_historical_match,
      round2, roundHalfEven, get_confidence_level]

/-- C5, counterexample: with an empty root-cause list the service-correlation
factor score is `0.5`, not `0.4` as the claim states (the code's final `0.4`
branch is unreachable). -/
theorem assess_service_correlation_empty_is_half :
    (assess_service_correlation [] (some [])).1 = 0.5 ∧ (0.5 : ℚ) ≠ 0.4 := by
  constructor
  · rfl
  · norm_num

/-- C5 (amended): the service-correlation factor score is `0.95` if any root
cause has type `cascade_origin`; else `0.85` if any has type
`upstream_failure`; else, for a non-empty root-cause list, the average
root-cause confidence multiplied by `0.8`; and `0.5` (not `0.4`) when no root
causes are supplied at all (empty or absent list). -/
theorem assess_service_correlation_cases (ev : List EvidenceItem)
    (rcs : Option (List RootCause)) :
    (assess_service_correlation ev rcs).1 =
      if rcs.getD [] = [] then 0.5
      else if ∃ rc ∈ rcs.getD [], rc.rc_type = "cascade_origin" then 0.95
      else if ∃ rc ∈ rcs.getD [], rc.rc_type = "upstream_failure" then 0.85
      else ((rcs.getD []).map RootCause.confidence).sum / (rcs.getD []).length * 0.8 := by
  unfold assess_service_correlation
  rcases rcs with _ | l
  · norm_num
  · rcases l with _ | ⟨a, t⟩
    · norm_num
    · have hcf : (¬ ((a :: t).filter (fun rc => rc.rc_type = "cascade_origin")).isEmpty) =
          (∃ rc ∈ a :: t, rc.rc_type = "cascade_origin") := by
        simp only [eq_iff_iff, List.isEmpty_iff, List.filter_eq_nil_iff, decide_eq_true_eq]
        push_neg
        rfl
      have huf : (¬ ((a :: t).filter (fun rc => rc.rc_type = "upstream_failure")).isEmpty) =
          (∃ rc ∈ a :: t, rc.rc_type = "upstream_failure") := by
        simp only [eq_iff_iff, List.isEmpty_iff, List.filter_eq_nil_iff, decide_eq_true_eq]
        push_neg
        rfl
      simp only [Option.getD_some, hcf, huf]
      split_ifs with h1 h2 h3 h4 <;> simp_all

/-! ## Raw events (flat key-value records) and the shared error predicate -/

/-- A raw log record / event: a flat string-keyed map in insertion order. -/
abbrev Record := List (String × String)

namespace PatternCorrelation

/-- `PatternCorrelation._is_error_event` (src/analyzer/correlation.py). -/
def is_error_event (event : Record) : Bool :=
  let level := lowerStr ((alookup "level" event).getD ((alookup "log_level" event).getD ""))
  let raw := lowerStr ((alookup "_raw" event).getD "")
  (["error", "fatal", "critical"].contains level) ||
    (["error", "exception", "failed", "failure", "timeout"].any (fun x => strContains raw x))

end PatternCorrelation

namespace RCAEngine

/-- `RCAEngine._is_error_result` (src/analyzer/rca_engine.py). -/
def is_error_result (result : Record) : Bool :=
  let raw := lowerStr ((alookup "_raw" result).getD "")
  let level := lowerStr ((alookup "level" result).getD ((alookup "log_level" result).getD ""))
  (["error", "fatal", "critical"].contains level) ||
    (["error", "exception", "failed", "failure", "timeout"].any (fun x => strContains raw x))

end RCAEngine

/-- C8: the error-classification predicates of the Correlation Engine and the
RCA Ranker agree on every event, and both hold exactly when the lowercased
`level` (falling back to `log_level`) field is one of error/fatal/critical, or
the lowercased raw payload contains one of error, exception, failed, failure,
timeout. -/
theorem error_predicates_agree (r : Record) :
    PatternCorrelation.is_error_event r = RCAEngine.is_error_result r ∧
      (PatternCorrelation.is_error_event r = true ↔
        (lowerStr ((alookup "level" r).getD ((alookup "log_level" r).getD "")) ∈
            (["error", "fatal", "critical"] : List String) ∨
          ∃ kw ∈ (["error", "exception", "failed", "failure", "timeout"] : List String),
            strContains (lowerStr ((alookup "_raw" r).getD "")) kw = true)) := by
  refine ⟨rfl, ?_⟩
  simp [PatternCorrelation.is_error_event, List.any_eq_true, List.contains_iff_exists_mem_beq,
    beq_iff_eq]

/-! ## Service dependency catalog (src/shared/service_catalog.py) -/

/-- One upstream dependency declaration: either a JSON object with a
`service` key and `failure_modes`, or a plain service-id string (the code
guards every access with `isinstance(dep, dict)`). -/
inductive DepEntry where
  | asDict (service : String) (failure_modes : List String)
  | asStr (service : String)
deriving Repr, DecidableEq

/-- The service id carried by either kind of dependency entry
(`dep.get("service") if isinstance(dep, dict) else dep`). -/
def DepEntry.service : DepEntry → String
  | .asDict s _ => s
  | .asStr s => s

/-- The catalog data read for one service: its declared upstream dependency
list and its Splunk primary indexes. -/
structure ServiceData where
  upstream : List DepEntry := []
  primary_indexes : List String := []
deriving Repr, DecidableEq

/-- The loaded service catalog: services keyed by id in file order. -/
structure Catalog where
  services : List (String × ServiceData)
deriving Repr, DecidableEq

namespace ServiceCatalog

/-- `ServiceCatalog.find_service`: exact id match, then case-insensitive id
match, then substring match in either direction (first match wins). -/
def find_service (c : Catalog) (service_name : String) : Option ServiceData :=
  match alookup service_name c.services with
  | some s => some s
  | none =>
    let lower := lowerStr service_name
    match c.services.find? (fun p => lowerStr p.1 = lower) with
    | some p => some p.2
    | none =>
      match c.services.find? (fun p =>
        strContains (lowerStr p.1) lower || strContains lower (lowerStr p.1)) with
      | some p => some p.2
      | none => none

/-- `ServiceCatalog.get_upstream_dependencies`. -/
def get_upstream_dependencies (c : Catalog) (service_id : String) : List DepEntry :=
  ((find_service c service_id).map (fun s => s.upstream)).getD []

/-- `ServiceCatalog.get_downstream_dependencies`: full scan; a downstream
entry is appended once per upstream declaration naming `service_id` (exact
string comparison, no fuzzy matching). -/
def get_downstream_dependencies (c : Catalog) (service_id : String) : List String :=
  c.services.flatMap (fun p =>
    p.2.upstream.filterMap (fun dep =>
      if dep.service = service_id then some p.1 else none))

/-- `ServiceCatalog.get_splunk_indexes`. -/
def get_splunk_indexes (c : Catalog) (service_id : String) : List String :=
  ((find_service c service_id).map (fun s => s.primary_indexes)).getD []

end ServiceCatalog

/-! ## Cascade analysis (RCAEngine._analyze_cascade_patterns) -/

/-- One entry of the simplified timeline built by `_build_event_timeline`:
a timestamp string and an owning service. -/
structure TimelineEvent where
  timestamp : String
  service : String
deriving Repr, DecidableEq

/-- The result of cascade analysis. -/
structure CascadeInfo where
  detected : Bool := false
  chain : List (String × String) := []
  origin_service : Option String := none
deriving Repr, DecidableEq

namespace RCAEngine

/-- The per-service error groups of the timeline: `service_errors[s]` in the
source, which groups by `event.get("service")` preserving event order. -/
def serviceErrors (timeline : List TimelineEvent) (s : String) : List TimelineEvent :=
  timeline.filter (fun e => e.service = s)

/-- The group keys of `service_errors` in Python dict insertion order. -/
def serviceKeys (timeline : List TimelineEvent) : List String :=
  firstDedup [] (timeline.map (fun e => e.service))

/-- The body of the inner `for dep_service in downstream_deps` loop of
`_analyze_cascade_patterns`: if `dep` has an error strictly later (Python
string `>`) than origin `s`'s first error `fe`, set `detected`, overwrite
`origin_service` with `s` and append the edge `(s, dep)`; the `break` after
the first such error makes `find?` the exact model of the inner scan. -/
def cascadeDepStep (tl : List TimelineEvent) (s : String) (fe : TimelineEvent)
    (acc : CascadeInfo) (dep : String) : CascadeInfo :=
  if (serviceErrors tl dep).isEmpty then acc
  else
    match (serviceErrors tl dep).find? (fun de => strLt fe.timestamp de.timestamp) with
    | some _ => { detected := true, origin_service := some s, chain := acc.chain ++ [(s, dep)] }
    | none => acc

/-- The outer loop body of `_analyze_cascade_patterns` for one candidate
origin service `s` (`if not errors: continue` guards the empty group, which
cannot occur for a group key). -/
def cascadeStep (c : Catalog) (timeline : List TimelineEvent) (s : String)
    (info : CascadeInfo) : CascadeInfo :=
  match serviceErrors timeline s with
  | [] => info
  | first_error :: _ =>
    (ServiceCatalog.get_downstream_dependencies c s).foldl
      (cascadeDepStep timeline s first_error) info

/-- `RCAEngine._analyze_cascade_patterns`. -/
def analyze_cascade_patterns (c : Catalog) (timeline : List TimelineEvent) : CascadeInfo :=
  if timeline.isEmpty then {}
  else (serviceKeys timeline).foldl (fun info s => cascadeStep c timeline s info) {}

/-- Does service `s` originate at least one cascade edge in the timeline? -/
def hasCascadeEdge (c : Catalog) (timeline : List TimelineEvent) (s : String) : Bool :=
  match serviceErrors timeline s with
  | [] => false
  | first_error :: _ =>
    (ServiceCatalog.get_downstream_dependencies c s).any (fun dep =>
      !(serviceErrors timeline dep).isEmpty &&
        ((serviceErrors timeline dep).find?
          (fun de => strLt first_error.timestamp de.timestamp)).isSome)

/-- The origin services in group iteration order. -/
def cascadeOrigins (c : Catalog) (timeline : List TimelineEvent) : List String :=
  (serviceKeys timeline).filter (fun s => hasCascadeEdge c timeline s)

/-- Behaviour of the inner dependency fold: it latches `detected` and sets
`origin_service := some s` exactly when some downstream dependency qualifies. -/
theorem cascadeDepFold_spec (tl : List TimelineEvent) (s : String) (fe : TimelineEvent) :
    ∀ (deps : List String) (info : CascadeInfo),
      (deps.foldl (cascadeDepStep tl s fe) info).origin_service =
          (if deps.any (fun dep => !(serviceErrors tl dep).isEmpty &&
              ((serviceErrors tl dep).find?
                (fun de => strLt fe.timestamp de.timestamp)).isSome) then some s
            else info.origin_service) ∧
        (deps.foldl (cascadeDepStep tl s fe) info).detected =
          (info.detected || deps.any (fun dep => !(serviceErrors tl dep).isEmpty &&
            ((serviceErrors tl dep).find?
              (fun de => strLt fe.timestamp de.timestamp)).isSome)) := by
  intro deps
  induction deps with
  | nil => simp
  | cons d ds ih =>
    intro info
    simp only [List.foldl_cons, List.any_cons]
    by_cases h1 : (serviceErrors tl d).isEmpty
    · have hs : cascadeDepStep tl s fe info d = info := by
        unfold cascadeDepStep
        rw [if_pos h1]
      have hq : (!(serviceErrors tl d).isEmpty &&
          ((serviceErrors tl d).find? (fun de => strLt fe.timestamp de.timestamp)).isSome)
          = false := by simp [h1]
      rw [hs]
      simp only [hq]
      rcases ih info with ⟨ho, hd⟩
      rw [ho, hd]
      simp
    · by_cases h2 : ((serviceErrors tl d).find?
          (fun de => strLt fe.timestamp de.timestamp)).isSome
      · obtain ⟨de, hde⟩ := Option.isSome_iff_exists.mp h2
        have hs : cascadeDepStep tl s fe info d =
            ⟨true, info.chain ++ [(s, d)], some s⟩ := by
          unfold cascadeDepStep
          rw [if_neg h1, hde]
        have hq : (!(serviceErrors tl d).isEmpty &&
            ((serviceErrors tl d).find?
              (fun de => strLt fe.timestamp de.timestamp)).isSome) = true := by
          simp [h1, h2]
        rw [hs]
        simp only [hq]
        obtain ⟨ho, hd⟩ := ih ⟨true, info.chain ++ [(s, d)], some s⟩
        rw [ho, hd]
        constructor
        · by_cases hany : ds.any (fun dep =>
            !(serviceErrors tl dep).isEmpty &&
              ((serviceErrors tl dep).find?
                (fun de => strLt fe.timestamp de.timestamp)).isSome) <;> simp [hany]
        · simp
      · have hde : (serviceErrors tl d).find?
            (fun de => strLt fe.timestamp de.timestamp) = none :=
          Option.not_isSome_iff_eq_none.mp h2
        have hs : cascadeDepStep tl s fe info d = info := by
          unfold cascadeDepStep
          rw [if_neg h1, hde]
        have hq : (!(serviceErrors tl d).isEmpty &&
            ((serviceErrors tl d).find?
              (fun de => strLt fe.timestamp de.timestamp)).isSome) = false := by
          simp [hde]
        rw [hs]
        simp only [hq]
        obtain ⟨ho, hd⟩ := ih info
        rw [ho, hd]
        simp

/-- One origin step of the cascade fold in terms of `hasCascadeEdge`. -/
theorem cascadeStep_origin_detected (c : Catalog) (tl : List TimelineEvent)
    (s : String) (info : CascadeInfo) :
    (cascadeStep c tl s info).origin_service =
        (if hasCascadeEdge c tl s then some s else info.origin_service) ∧
      (cascadeStep c tl s info).detected = (info.detected || hasCascadeEdge c tl s) := by
  unfold cascadeStep hasCascadeEdge
  cases h : serviceErrors tl s with
  | nil => simp
  | cons fe rest =>
    rcases cascadeDepFold_spec tl s fe (ServiceCatalog.get_downstream_dependencies c s)
      info with ⟨ho, hd⟩
    exact ⟨ho, hd⟩

end RCAEngine

namespace RCAEngine

/-- Behaviour of the outer cascade fold: `detected` records whether any group
key originates an edge, and `origin_service` is the LAST originating key —
each later origin overwrites the earlier one. -/
theorem cascadeFold_spec (c : Catalog) (tl : List TimelineEvent) :
    ∀ (keys : List String) (info : CascadeInfo),
      (keys.foldl (fun i s => cascadeStep c tl s i) info).origin_service =
          (match (keys.filter (fun s => hasCascadeEdge c tl s)).getLast? with
            | some s => some s
            | none => info.origin_service) ∧
        (keys.foldl (fun i s => cascadeStep c tl s i) info).detected =
          (info.detected || keys.any (fun s => hasCascadeEdge c tl s)) := by
  intro keys
  induction keys with
  | nil => simp
  | cons k ks ih =>
    intro info
    simp only [List.foldl_cons, List.any_cons, List.filter_cons]
    obtain ⟨ho, hd⟩ := cascadeStep_origin_detected c tl k info
    by_cases hk : hasCascadeEdge c tl k
    · simp only [hk, if_true, ite_true, Bool.true_or, Bool.or_true]
      obtain ⟨ho', hd'⟩ := ih (cascadeStep c tl k info)
      refine ⟨?_, ?_⟩
      · rw [ho']
        cases hl : (ks.filter (fun s => hasCascadeEdge c tl s)).getLast? with
        | some s => simp [List.getLast?_cons, hl]
        | none =>
          have : ks.filter (fun s => hasCascadeEdge c tl s) = [] := by
            cases hfe : ks.filter (fun s => hasCascadeEdge c tl s) with
            | nil => rfl
            | cons x xs => rw [hfe] at hl; simp [List.getLast?_cons] at hl
          rw [ho, if_pos hk]
          simp [List.getLast?_cons, this]
      · rw [hd', hd, hk]
        simp
    · have hkf : hasCascadeEdge c tl k = false := by simpa using hk
      simp only [hkf, if_false, ite_false, Bool.false_or, Bool.false_eq_true]
      obtain ⟨ho', hd'⟩ := ih (cascadeStep c tl k info)
      have hoi : (cascadeStep c tl k info).origin_service = info.origin_service := by
        rw [ho, if_neg hk]
      have hdi : (cascadeStep c tl k info).detected = info.detected := by
        rw [hd, hkf]
        simp
      refine ⟨?_, ?_⟩
      · rw [ho']
        cases hl : (ks.filter (fun s => hasCascadeEdge c tl s)).getLast? with
        | some s => simp [hl]
        | none => simp [hl, hoi]
      · rw [hd', hdi]

end RCAEngine

/-- Fixed two-service catalog for the cascade counterexample: `svc-x` declares
upstream `svc-a` and `svc-y` declares upstream `svc-b`, so `svc-a` and `svc-b`
are two independent cascade origins. -/
def cascadeCatalog : Catalog :=
  ⟨[("svc-x", { upstream := [.asDict "svc-a" []] }),
    ("svc-y", { upstream := [.asDict "svc-b" []] })]⟩

/-- Timeline with two independent origins: `svc-a` and `svc-b` both error
first, then their respective downstreams `svc-x` and `svc-y` error later. -/
def cascadeTimeline : List TimelineEvent :=
  [⟨"2026-01-09T10:00:00", "svc-a"⟩, ⟨"2026-01-09T10:00:00", "svc-b"⟩,
   ⟨"2026-01-09T10:00:30", "svc-x"⟩, ⟨"2026-01-09T10:00:30", "svc-y"⟩]

/-- C4, counterexample: with two origins (`svc-a` first, then `svc-b` in
iteration order, both with cascade edges), `_analyze_cascade_patterns` reports
the LAST origin (`svc-b`), not the first (`svc-a`) as the claim states. -/
theorem analyze_cascade_two_origins_reports_last :
    (RCAEngine.analyze_cascade_patterns cascadeCatalog cascadeTimeline).detected = true ∧
      ("svc-a", "svc-x") ∈
        (RCAEngine.analyze_cascade_patterns cascadeCatalog cascadeTimeline).chain ∧
      (RCAEngine.analyze_cascade_patterns cascadeCatalog cascadeTimeline).origin_service =
        some "svc-b" ∧
      (RCAEngine.analyze_cascade_patterns cascadeCatalog cascadeTimeline).origin_service ≠
        some "svc-a" := by
  decide

/-- Helper: a list has an element satisfying `p` iff its `p`-filtering is
non-empty. -/
theorem any_eq_not_isEmpty_filter {α : Type} (p : α → Bool) (l : List α) :
    l.any p = !(l.filter p).isEmpty := by
  induction l with
  | nil => rfl
  | cons a t ih =>
    simp only [List.any_cons, List.filter_cons]
    cases hp : p a
    · simp [ih]
    · simp

/-- C4 (amended): for every catalog and timeline, cascade detection reports
`detected = true` iff some service originates a cascade edge, and reports as
`origin_service` the LAST origin service found in iteration order (each later
origin found overwrites the earlier one; first-found does not win). -/
theorem analyze_cascade_reports_last_origin (c : Catalog) (tl : List TimelineEvent) :
    (RCAEngine.analyze_cascade_patterns c tl).detected =
        !(RCAEngine.cascadeOrigins c tl).isEmpty ∧
      (RCAEngine.analyze_cascade_patterns c tl).origin_service =
        (RCAEngine.cascadeOrigins c tl).getLast? := by
  unfold RCAEngine.analyze_cascade_patterns RCAEngine.cascadeOrigins
  by_cases he : tl.isEmpty
  · have : tl = [] := by simpa [List.isEmpty_iff] using he
    subst this
    simp [RCAEngine.serviceKeys, firstDedup]
  · rw [if_neg he]
    obtain ⟨ho, hd⟩ := RCAEngine.cascadeFold_spec c tl (RCAEngine.serviceKeys tl) {}
    refine ⟨?_, ?_⟩
    · rw [hd]
      show (false || _) = _
      rw [Bool.false_or, any_eq_not_isEmpty_filter]
    · rw [ho]
      cases hl : ((RCAEngine.serviceKeys tl).filter
          (fun s => RCAEngine.hasCascadeEdge c tl s)).getLast? with
      | some s => rfl
      | none => rfl

/-! ## Root-cause ranking (RCAEngine._rank_root_causes) -/

/-- One extracted error pattern (`_extract_error_patterns` output shape). -/
structure ErrorPattern where
  ptype : String := ""
  value : String := ""
  count : Int := 0
  significance : String := ""
  service : String := ""
  timestamp : Option String := none
  error_category : String := ""
deriving Repr, DecidableEq

/-- The origin analysis (`_find_error_origin` output shape). -/
structure OriginAnalysis where
  found : Bool := false
  service : String := ""
  timestamp : Option String := none
  confidence : ℚ := 0
deriving Repr, DecidableEq

/-- One upstream-failure pair of the dependency analysis. -/
structure UpstreamFailure where
  service : String
  affected : String
  failure_modes : List String := []
deriving Repr, DecidableEq

/-- The dependency analysis (`_analyze_dependency_chain` output shape). -/
structure DependencyAnalysis where
  affected_services : List String := []
  upstream_failures : List UpstreamFailure := []
  downstream_impact : List (String × String) := []
deriving Repr, DecidableEq

namespace RCAEngine

/-- One aggregated `(service, error-category)` bucket of `pattern_counts`. -/
structure PatInfo where
  service : String
  category : String
  count : Int
  samples : List String
deriving Repr, DecidableEq

/-- One iteration of the `pattern_counts` accumulation: bucket key is the
string `f"{service}:{category}"`, the count is incremented by the pattern's
count and up to 3 samples (value truncated to 200 chars) are kept. -/
def bumpPatternCounts (acc : List (String × PatInfo)) (p : ErrorPattern) :
    List (String × PatInfo) :=
  let key := p.service ++ ":" ++ p.error_category
  match alookup key acc with
  | some _ =>
    acc.map (fun q =>
      if q.1 = key then
        (q.1, { q.2 with
          count := q.2.count + p.count,
          samples := if q.2.samples.length < 3 then q.2.samples ++ [strTake p.value 200]
            else q.2.samples })
      else q)
  | none =>
    acc ++ [(key, { service := p.service, category := p.error_category,
                    count := p.count, samples := [strTake p.value 200] })]

/-- Descending order on confidence (Python `sort(key=confidence, reverse=True)`). -/
def confGE (a b : RootCause) : Prop := b.confidence ≤ a.confidence

instance : DecidableRel confGE := fun a b =>
  inferInstanceAs (Decidable (b.confidence ≤ a.confidence))

instance : IsTotal RootCause confGE := ⟨fun a b => le_total b.confidence a.confidence⟩

instance : IsTrans RootCause confGE := ⟨fun _ _ _ h1 h2 => le_trans h2 h1⟩

/-- Descending order on bucket count (Python `sorted(key=count, reverse=True)`). -/
def countGE (a b : String × PatInfo) : Prop := b.2.count ≤ a.2.count

instance : DecidableRel countGE := fun a b =>
  inferInstanceAs (Decidable (b.2.count ≤ a.2.count))

instance : IsTotal (String × PatInfo) countGE := ⟨fun a b => le_total b.2.count a.2.count⟩

instance : IsTrans (String × PatInfo) countGE := ⟨fun _ _ _ h1 h2 => le_trans h2 h1⟩

/-- The combined candidate list built by `_rank_root_causes` before sorting:
cascade origin, upstream failures, origin analysis (suppressed when a cascade
was detected), then up to 3 highest-count frequent-error buckets. -/
def rank_candidates (error_patterns : List ErrorPattern) (cascade_analysis : CascadeInfo)
    (origin_analysis : OriginAnalysis) (dependency_analysis : DependencyAnalysis) :
    List RootCause :=
  let cascade : List RootCause :=
    match cascade_analysis.origin_service with
    | some origin =>
      if cascade_analysis.detected ∧ origin ≠ "" then
        [{ description := "Error cascade originated from " ++ origin,
           service := origin, confidence := 0.9, rc_type := "cascade_origin",
           evidence := { cascade_chain := cascade_analysis.chain,
                         affected_services := cascade_analysis.chain.map Prod.snd } }]
      else []
    | none => []
  let upstream : List RootCause :=
    dependency_analysis.upstream_failures.map (fun f =>
      { description := "Upstream service " ++ f.service ++ " failed, affecting " ++ f.affected,
        service := f.service, confidence := 0.85, rc_type := "upstream_failure",
        evidence := { failure_modes := f.failure_modes, downstream_affected := f.affected } })
  let origin : List RootCause :=
    if origin_analysis.found ∧ ¬ cascade_analysis.detected then
      [{ description := "Earliest error detected in " ++ origin_analysis.service,
         service := origin_analysis.service, confidence := origin_analysis.confidence,
         rc_type := "earliest_error",
         evidence := { timestamp := origin_analysis.timestamp } }]
    else []
  let pattern_counts := error_patterns.foldl bumpPatternCounts []
  let sorted_patterns := List.insertionSort countGE pattern_counts
  let frequent : List RootCause :=
    (sorted_patterns.take 3).filterMap (fun q =>
      if 0 < q.2.count then
        some { description := "Frequent " ++ q.2.category ++ " errors in " ++ q.2.service ++
                 " (" ++ toString q.2.count ++ " occurrences)",
               service := q.2.service,
               confidence := min (0.5 + (q.2.count : ℚ) * 0.05) 0.8,
               rc_type := "frequent_error",
               evidence := { error_count := q.2.count, samples := q.2.samples } }
      else none)
  cascade ++ upstream ++ origin ++ frequent

/-- The final dedup of `_rank_root_causes`: keep the first cause per service. -/
def dedupByService (seen : List String) : List RootCause → List RootCause
  | [] => []
  | c :: t =>
    if c.service ∈ seen then dedupByService seen t
    else c :: dedupByService (c.service :: seen) t

/-- `RCAEngine._rank_root_causes`. -/
def rank_root_causes (error_patterns : List ErrorPattern) (cascade_analysis : CascadeInfo)
    (origin_analysis : OriginAnalysis) (dependency_analysis : DependencyAnalysis) :
    List RootCause :=
  (dedupByService []
    (List.insertionSort confGE
      (rank_candidates error_patterns cascade_analysis origin_analysis
        dependency_analysis))).take 5

/-- Elements surviving the dedup never carry a service already seen. -/
theorem dedupByService_not_seen :
    ∀ (l : List RootCause) (seen : List String) (c : RootCause),
      c ∈ dedupByService seen l → c.service ∉ seen := by
  intro l
  induction l with
  | nil => intro seen c hc; simp [dedupByService] at hc
  | cons a t ih =>
    intro seen c hc
    simp only [dedupByService] at hc
    by_cases hs : a.service ∈ seen
    · rw [if_pos hs] at hc
      exact ih seen c hc
    · rw [if_neg hs] at hc
      rcases List.mem_cons.mp hc with rfl | hc'
      · exact hs
      · have := ih (a.service :: seen) c hc'
        exact fun hmem => this (List.mem_cons_of_mem _ hmem)

/-- The dedup output is a sublist of its input. -/
theorem dedupByService_subset :
    ∀ (l : List RootCause) (seen : List String) (c : RootCause),
      c ∈ dedupByService seen l → c ∈ l := by
  intro l
  induction l with
  | nil => intro seen c hc; simp [dedupByService] at hc
  | cons a t ih =>
    intro seen c hc
    simp only [dedupByService] at hc
    by_cases hs : a.service ∈ seen
    · rw [if_pos hs] at hc
      exact List.mem_cons_of_mem _ (ih seen c hc)
    · rw [if_neg hs] at hc
      rcases List.mem_cons.mp hc with rfl | hc'
      · exact List.mem_cons_self _ _
      · exact List.mem_cons_of_mem _ (ih _ c hc')

/-- After the dedup no two entries share a service id. -/
theorem dedupByService_nodup :
    ∀ (l : List RootCause) (seen : List String),
      ((dedupByService seen l).map RootCause.service).Nodup := by
  intro l
  induction l with
  | nil => intro seen; simp [dedupByService]
  | cons a t ih =>
    intro seen
    simp only [dedupByService]
    by_cases hs : a.service ∈ seen
    · rw [if_pos hs]
      exact ih seen
    · rw [if_neg hs]
      simp only [List.map_cons, List.nodup_cons]
      refine ⟨?_, ih (a.service :: seen)⟩
      intro hmem
      obtain ⟨c, hc, hcs⟩ := List.mem_map.mp hmem
      have := dedupByService_not_seen t (a.service :: seen) c hc
      exact this (hcs ▸ List.mem_cons_self _ _)

/-- In a list sorted descending by confidence, each survivor of the dedup has
maximal confidence among all same-service entries of the list. -/
theorem dedupByService_max (l : List RootCause) (hl : l.Sorted confGE) :
    ∀ (seen : List String) (c : RootCause), c ∈ dedupByService seen l →
      ∀ c' ∈ l, c'.service = c.service → c'.confidence ≤ c.confidence := by
  induction l with
  | nil => intro seen c hc; simp [dedupByService] at hc
  | cons a t ih =>
    have hhead := (List.sorted_cons.mp hl).1
    have htail := (List.sorted_cons.mp hl).2
    intro seen c hc c' hc' hsvc
    simp only [dedupByService] at hc
    by_cases hs : a.service ∈ seen
    · rw [if_pos hs] at hc
      rcases List.mem_cons.mp hc' with rfl | hmem
      · exact absurd (hsvc ▸ hs) (dedupByService_not_seen t seen c hc)
      · exact ih htail seen c hc c' hmem hsvc
    · rw [if_neg hs] at hc
      rcases List.mem_cons.mp hc with rfl | hc2
      · rcases List.mem_cons.mp hc' with rfl | hmem
        · exact le_refl _
        · exact hhead c' hmem
      · have hne : c.service ≠ a.service := by
          intro he
          exact (dedupByService_not_seen t (a.service :: seen) c hc2)
            (he ▸ List.mem_cons_self _ _)
        rcases List.mem_cons.mp hc' with rfl | hmem
        · exact absurd hsvc (fun h => hne h.symm)
        · exact ih htail (a.service :: seen) c hc2 c' hmem hsvc

/-- C6: for every input to the root-cause ranker, the result has at most 5
entries, no two entries share a service id, and every kept entry's confidence
dominates the confidence of every candidate with the same service id (the
combined candidate list is sorted descending by confidence, then deduplicated
by service keeping the first, i.e. highest-confidence, occurrence). -/
theorem rank_root_causes_invariants (error_patterns : List ErrorPattern)
    (cascade_analysis : CascadeInfo) (origin_analysis : OriginAnalysis)
    (dependency_analysis : DependencyAnalysis) :
    (rank_root_causes error_patterns cascade_analysis origin_analysis
        dependency_analysis).length ≤ 5 ∧
      ((rank_root_causes error_patterns cascade_analysis origin_analysis
        dependency_analysis).map RootCause.service).Nodup ∧
      ∀ c ∈ rank_root_causes error_patterns cascade_analysis origin_analysis
          dependency_analysis,
        ∀ c' ∈ rank_candidates error_patterns cascade_analysis origin_analysis
          dependency_analysis,
        c'.service = c.service → c'.confidence ≤ c.confidence := by
  unfold rank_root_causes
  refine ⟨?_, ?_, ?_⟩
  · simp only [List.length_take]
    exact min_le_left _ _
  · have h1 := dedupByService_nodup
      (List.insertionSort confGE (rank_candidates error_patterns cascade_analysis
        origin_analysis dependency_analysis)) []
    have h2 : List.Sublist
        (((dedupByService []
          (List.insertionSort confGE (rank_candidates error_patterns cascade_analysis
            origin_analysis dependency_analysis))).take 5).map RootCause.service)
        ((dedupByService []
          (List.insertionSort confGE (rank_candidates error_patterns cascade_analysis
            origin_analysis dependency_analysis))).map RootCause.service) :=
      (List.take_sublist _ _).map _
    exact h1.sublist h2
  · intro c hc c' hc' hsvc
    have hc1 : c ∈ dedupByService []
        (List.insertionSort confGE (rank_candidates error_patterns cascade_analysis
          origin_analysis dependency_analysis)) :=
      List.mem_of_mem_take hc
    have hc'1 : c' ∈ List.insertionSort confGE
        (rank_candidates error_patterns cascade_analysis origin_analysis
          dependency_analysis) :=
      (List.perm_insertionSort confGE _).mem_iff.mpr hc'
    exact dedupByService_max _ (List.sorted_insertionSort confGE _) [] c hc1 c' hc'1 hsvc

end RCAEngine

/-! ## Result analyzer (src/analyzer/analyzer.py) -/

/-- One finding produced by `ResultAnalyzer._extract_patterns`. -/
structure Finding where
  field : String
  pattern : String
  count : Nat
  significance : String
  matches_intent : Bool
deriving Repr, DecidableEq

/-- The intent hints the analyzer consumes (`entities`, `symptom_keywords`). -/
structure Intent where
  entities : List String := []
  symptom_keywords : List String := []
deriving Repr, DecidableEq

/-- Query results as returned by the query executor. -/
structure QueryResults where
  results : List Record := []
  total_count : Int := 0
  fields : List String := []
deriving Repr, DecidableEq

/-- The output of `ResultAnalyzer.analyze`. -/
structure Analysis where
  summary : String
  findings : List Finding
  result_count : Int
  sufficient_evidence : Bool
deriving Repr, DecidableEq

namespace ResultAnalyzer

/-- Per-field value counts: Python's nested dict
`field_counts[field][str(value)]`, in insertion order. -/
abbrev FieldCounts := List (String × List (String × Nat))

/-- Count one occurrence of value `v`: increment its first entry or append a
fresh `(v, 1)` entry. -/
def bumpValue : List (String × Nat) → String → List (String × Nat)
  | [], v => [(v, 1)]
  | (w, c) :: t, v => if w = v then (w, c + 1) :: t else (w, c) :: bumpValue t v

/-- Count one `(field, value)` pair in the nested dict. -/
def bumpField : FieldCounts → String → String → FieldCounts
  | [], k, v => [(k, bumpValue [] v)]
  | (k', cs) :: t, k, v =>
    if k' = k then (k', bumpValue cs v) :: t else (k', cs) :: bumpField t k v

/-- One key/value pair of one record: skipped for the internal `_time`/`_raw`
fields, counted otherwise. -/
def recordStep (fc : FieldCounts) (kv : String × String) : FieldCounts :=
  if kv.1 = "_time" ∨ kv.1 = "_raw" then fc else bumpField fc kv.1 kv.2

/-- The `field_counts` accumulation loop of `_extract_patterns`. -/
def buildFieldCounts (results : List Record) : FieldCounts :=
  results.foldl (fun fc r => r.foldl recordStep fc) []

/-- Sort key of a finding: `(matches_intent, significance == "high")`. -/
def patternKey (p : Finding) : Bool × Bool := (p.matches_intent, p.significance == "high")

/-- Lexicographic `≤` on `Bool × Bool` (Python tuple comparison). -/
def boolPairLe (p q : Bool × Bool) : Prop := p.1 < q.1 ∨ (p.1 = q.1 ∧ p.2 ≤ q.2)

instance : DecidableRel boolPairLe := fun p q =>
  inferInstanceAs (Decidable (p.1 < q.1 ∨ (p.1 = q.1 ∧ p.2 ≤ q.2)))

/-- Python's stable `patterns.sort(key=…, reverse=True)` order: descending by
key, equal keys keep input order. -/
def patternOrder (a b : Finding) : Prop := boolPairLe (patternKey b) (patternKey a)

instance : DecidableRel patternOrder := fun a b =>
  inferInstanceAs (Decidable (boolPairLe (patternKey b) (patternKey a)))

/-- The body of the per-field loop of `_extract_patterns`: fields with more
than 5 distinct values are dropped, otherwise the first most-frequent value
becomes a finding; significance is `high` on an entity/keyword overlap or on a
strict majority (`top_count > len(results) * 0.5`, i.e. `n < 2·count`). -/
def patternOf (n : Nat) (entities symptom_keywords : List String)
    (fc : String × List (String × Nat)) : Option Finding :=
  if fc.2.length ≤ 5 then
    match pyMaxBy Prod.snd fc.2 with
    | some top =>
      let value_str := lowerStr top.1
      let matches_entity := entities.any (fun e =>
        strContains value_str e || strContains e value_str)
      let matches_keyword := symptom_keywords.any (fun k =>
        strContains value_str k || strContains k value_str)
      let matched := matches_entity || matches_keyword
      some { field := fc.1, pattern := top.1, count := top.2,
             significance := if matched then "high"
               else if n < top.2 * 2 then "high" else "medium",
             matches_intent := matched }
    | none => none
  else none

/-- `ResultAnalyzer._extract_patterns`. -/
def extract_patterns (results : List Record) (intent : Option Intent) : List Finding :=
  let entities := ((intent.map Intent.entities).getD []).map lowerStr
  let symptom_keywords := ((intent.map Intent.symptom_keywords).getD []).map lowerStr
  let patterns := (buildFieldCounts results).filterMap
    (patternOf results.length entities symptom_keywords)
  List.insertionSort patternOrder patterns

/-- `ResultAnalyzer._generate_summary`. -/
def generate_summary (count : Int) (findings : List Finding) (hypothesis : String) : String :=
  if count = 0 then "No results found for hypothesis: " ++ hypothesis
  else
    "Found " ++ toString count ++ " results. " ++
      match findings with
      | top :: _ =>
        "Key pattern: " ++ top.field ++ "=" ++ top.pattern ++
          " (count: " ++ toString top.count ++ ")" ++
          (if top.matches_intent then " (matches extracted entities/keywords)" else "")
      | [] => "No clear patterns identified."

/-- `ResultAnalyzer.analyze`. -/
def analyze (results : QueryResults) (hypothesis : String) (intent : Option Intent) :
    Analysis :=
  let findings :=
    if 0 < results.total_count then extract_patterns results.results intent else []
  { summary := generate_summary results.total_count findings hypothesis,
    findings := findings,
    result_count := results.total_count,
    sufficient_evidence := decide (0 < results.total_count ∧ 2 ≤ findings.length) }

/-- All values carried by field `f` in a flat pair list, in order. -/
def pairVals (pairs : List (String × String)) (f : String) : List String :=
  pairs.filterMap (fun kv => if kv.1 = f then some kv.2 else none)

/-- All values carried by field `f` across the records, in scan order. -/
def fieldValues (results : List Record) (f : String) : List String :=
  results.flatMap (fun r => pairVals r f)

/-- Number of occurrences of value `v` under field `f` across the records
(with unique keys per record, this is the number of records carrying the
pair). -/
def occCount (results : List Record) (f v : String) : Nat :=
  (fieldValues results f).count v

/-- Number of distinct values under field `f`. -/
def distinctCount (results : List Record) (f : String) : Nat :=
  (firstDedup [] (fieldValues results f)).length

end ResultAnalyzer

/-! ## Supporting lemmas for the pattern-extraction claim -/

/-- A successful `alookup` result is a member of the list. -/
theorem alookup_mem {β : Type} :
    ∀ (l : List (String × β)) (k : String) (b : β), alookup k l = some b → (k, b) ∈ l := by
  intro l
  induction l with
  | nil => intro k b h; simp [alookup] at h
  | cons a t ih =>
    intro k b h
    simp only [alookup] at h
    by_cases hk : a.1 = k
    · rw [if_pos hk] at h
      obtain ⟨a1, a2⟩ := a
      cases hk
      cases h
      exact List.mem_cons_self _ _
    · rw [if_neg hk] at h
      exact List.mem_cons_of_mem _ (ih k b h)

/-- With duplicate-free keys, membership determines the `alookup` result. -/
theorem alookup_of_nodup_mem {β : Type} :
    ∀ (l : List (String × β)), (l.map Prod.fst).Nodup →
      ∀ (k : String) (b : β), (k, b) ∈ l → alookup k l = some b := by
  intro l
  induction l with
  | nil => intro _ k b h; simp at h
  | cons a t ih =>
    intro hn k b h
    simp only [List.map_cons, List.nodup_cons] at hn
    rcases List.mem_cons.mp h with rfl | hmem
    · simp [alookup]
    · have hk : a.1 ≠ k := by
        intro he
        exact hn.1 (he ▸ (List.mem_map.mpr ⟨(k, b), hmem, rfl⟩))
      simp only [alookup, if_neg hk]
      exact ih hn.2 k b hmem

/-- Membership in a first-occurrence dedup. -/
theorem firstDedup_mem {α : Type} [DecidableEq α] :
    ∀ (l : List α) (seen : List α) (x : α),
      x ∈ firstDedup seen l ↔ x ∈ l ∧ x ∉ seen := by
  intro l
  induction l with
  | nil => intro seen x; simp [firstDedup]
  | cons a t ih =>
    intro seen x
    simp only [firstDedup]
    by_cases ha : a ∈ seen
    · rw [if_pos ha, ih]
      constructor
      · rintro ⟨hx, hs⟩
        exact ⟨List.mem_cons_of_mem _ hx, hs⟩
      · rintro ⟨hx, hs⟩
        rcases List.mem_cons.mp hx with rfl | hmem
        · exact absurd ha hs
        · exact ⟨hmem, hs⟩
    · rw [if_neg ha]
      constructor
      · intro hx
        rcases List.mem_cons.mp hx with rfl | hmem
        · exact ⟨List.mem_cons_self _ _, ha⟩
        · obtain ⟨h1, h2⟩ := (ih (a :: seen) x).mp hmem
          exact ⟨List.mem_cons_of_mem _ h1,
            fun hs => h2 (List.mem_cons_of_mem _ hs)⟩
      · rintro ⟨hx, hs⟩
        rcases List.mem_cons.mp hx with rfl | hmem
        · exact List.mem_cons_self _ _
        · by_cases hxa : x = a
          · exact hxa ▸ List.mem_cons_self _ _
          · exact List.mem_cons_of_mem _ ((ih (a :: seen) x).mpr
              ⟨hmem, fun h => (List.mem_cons.mp h).elim hxa hs⟩)

/-- A first-occurrence dedup has no duplicates. -/
theorem firstDedup_nodup {α : Type} [DecidableEq α] :
    ∀ (l : List α) (seen : List α), (firstDedup seen l).Nodup := by
  intro l
  induction l with
  | nil => intro seen; simp [firstDedup]
  | cons a t ih =>
    intro seen
    simp only [firstDedup]
    by_cases ha : a ∈ seen
    · rw [if_pos ha]
      exact ih seen
    · rw [if_neg ha]
      refine List.nodup_cons.mpr ⟨?_, ih (a :: seen)⟩
      intro hmem
      exact ((firstDedup_mem t (a :: seen) a).mp hmem).2 (List.mem_cons_self _ _)

/-- Appending one element to a first-occurrence dedup. -/
theorem firstDedup_append_one {α : Type} [DecidableEq α] :
    ∀ (xs : List α) (seen : List α) (v : α),
      firstDedup seen (xs ++ [v]) =
        if v ∈ seen ∨ v ∈ xs then firstDedup seen xs else firstDedup seen xs ++ [v] := by
  intro xs
  induction xs with
  | nil =>
    intro seen v
    simp only [List.nil_append, firstDedup]
    by_cases hv : v ∈ seen
    · simp [hv, firstDedup]
    · simp [hv, firstDedup]
  | cons a t ih =>
    intro seen v
    simp only [List.cons_append, firstDedup, List.append_eq]
    by_cases ha : a ∈ seen
    · rw [if_pos ha, if_pos ha, ih]
      by_cases hv : v ∈ seen ∨ v ∈ t
      · rw [if_pos hv, if_pos (by
          rcases hv with h | h
          · exact Or.inl h
          · exact Or.inr (List.mem_cons_of_mem _ h))]
      · by_cases hva : v = a
        · rw [if_neg hv, if_pos (Or.inl (hva ▸ ha))]
          exact absurd (Or.inl (hva ▸ ha)) hv
        · rw [if_neg hv, if_neg (by
            rintro (h | h)
            · exact hv (Or.inl h)
            · rcases List.mem_cons.mp h with rfl | hm
              · exact hva rfl
              · exact hv (Or.inr hm))]
    · rw [if_neg ha, if_neg ha, ih]
      have hiff : (v ∈ a :: seen ∨ v ∈ t) ↔ (v ∈ seen ∨ v ∈ a :: t) := by
        simp only [List.mem_cons]
        tauto
      by_cases hv : v ∈ a :: seen ∨ v ∈ t
      · rw [if_pos hv, if_pos (hiff.mp hv)]
      · rw [if_neg hv, if_neg (fun h => hv (hiff.mpr h))]
        simp

namespace ResultAnalyzer

/-- Keys of `bumpValue`: unchanged if the value was present, else appended. -/
theorem bumpValue_keys :
    ∀ (cs : List (String × Nat)) (v : String),
      (bumpValue cs v).map Prod.fst =
        if v ∈ cs.map Prod.fst then cs.map Prod.fst else cs.map Prod.fst ++ [v] := by
  intro cs
  induction cs with
  | nil => intro v; simp [bumpValue]
  | cons a t ih =>
    intro v
    obtain ⟨w, c⟩ := a
    simp only [bumpValue]
    by_cases hw : w = v
    · subst hw
      simp
    · rw [if_neg hw]
      simp only [List.map_cons, ih v, List.mem_cons]
      by_cases hv : v ∈ t.map Prod.fst
      · rw [if_pos hv, if_pos (Or.inr hv)]
      · rw [if_neg hv, if_neg (by
          rintro (h | h)
          · exact hw h.symm
          · exact hv h)]
        simp

/-- Counts of `bumpValue`: the bumped value gains one, others are unchanged. -/
theorem bumpValue_count :
    ∀ (cs : List (String × Nat)) (v w : String),
      (alookup w (bumpValue cs v)).getD 0 =
        (alookup w cs).getD 0 + (if v = w then 1 else 0) := by
  intro cs
  induction cs with
  | nil =>
    intro v w
    simp only [bumpValue, alookup]
    by_cases hv : v = w
    · simp [hv]
    · simp [hv, fun h => hv h]
  | cons a t ih =>
    intro v w
    obtain ⟨u, c⟩ := a
    simp only [bumpValue]
    by_cases hu : u = v
    · subst hu
      simp only [alookup]
      by_cases huw : u = w
      · subst huw
        simp
      · simp [huw]
    · rw [if_neg hu]
      simp only [alookup]
      by_cases huw : u = w
      · subst huw
        have hv : v ≠ u := fun h => hu h.symm
        simp [hv]
      · simp only [if_neg huw]
        exact ih v w

/-- Lookup after `bumpField`: only the bumped field changes, and it changes by
`bumpValue` on its previous (possibly empty) counts. -/
theorem bumpField_alookup :
    ∀ (fc : FieldCounts) (k v g : String),
      alookup g (bumpField fc k v) =
        if k = g then some (bumpValue ((alookup g fc).getD []) v) else alookup g fc := by
  intro fc
  induction fc with
  | nil =>
    intro k v g
    simp only [bumpField, alookup]
    by_cases hk : k = g
    · simp [hk]
    · simp [hk]
  | cons a t ih =>
    intro k v g
    obtain ⟨k', cs⟩ := a
    simp only [bumpField]
    by_cases hk' : k' = k
    · subst hk'
      simp only [alookup]
      by_cases hg : k' = g
      · subst hg
        simp
      · simp [hg]
    · rw [if_neg hk']
      simp only [alookup]
      by_cases hg : k' = g
      · subst hg
        have : k ≠ k' := fun h => hk' h.symm
        simp [this]
      · simp only [if_neg hg]
        exact ih k v g

/-- The value keys recorded for field `f`. -/
def keysAt (fc : FieldCounts) (f : String) : List String :=
  ((alookup f fc).getD []).map Prod.fst

/-- The recorded count of value `w` under field `f`. -/
def countAt (fc : FieldCounts) (f w : String) : Nat :=
  (alookup w ((alookup f fc).getD [])).getD 0

/-- Effect of one scanned key/value pair on the keys of a non-internal field. -/
theorem recordStep_keysAt (fc : FieldCounts) (k v f : String)
    (hf : ¬ (f = "_time" ∨ f = "_raw")) :
    keysAt (recordStep fc (k, v)) f =
      if k = f then
        (if v ∈ keysAt fc f then keysAt fc f else keysAt fc f ++ [v])
      else keysAt fc f := by
  unfold recordStep
  by_cases hb : k = "_time" ∨ k = "_raw"
  · have hkf : k ≠ f := by
      rintro rfl
      exact hf hb
    rw [if_pos hb, if_neg hkf]
  · rw [if_neg hb]
    unfold keysAt
    rw [bumpField_alookup fc k v f]
    by_cases hkf : k = f
    · rw [if_pos hkf, if_pos hkf, Option.getD_some, bumpValue_keys]
    · rw [if_neg hkf, if_neg hkf]

/-- Effect of one scanned key/value pair on the counts of a non-internal field. -/
theorem recordStep_countAt (fc : FieldCounts) (k v f w : String)
    (hf : ¬ (f = "_time" ∨ f = "_raw")) :
    countAt (recordStep fc (k, v)) f w =
      countAt fc f w + (if k = f ∧ v = w then 1 else 0) := by
  unfold recordStep
  by_cases hb : k = "_time" ∨ k = "_raw"
  · have hkf : k ≠ f := by
      rintro rfl
      exact hf hb
    rw [if_pos hb, if_neg (by simp [hkf])]
    simp
  · rw [if_neg hb]
    unfold countAt
    rw [bumpField_alookup fc k v f]
    by_cases hkf : k = f
    · rw [if_pos hkf, Option.getD_some, bumpValue_count]
      by_cases hvw : v = w
      · rw [if_pos hvw, if_pos ⟨hkf, hvw⟩]
      · rw [if_neg hvw, if_neg (by rintro ⟨_, h⟩; exact hvw h)]
    · rw [if_neg hkf, if_neg (by rintro ⟨h, _⟩; exact hkf h)]
      simp

end ResultAnalyzer

namespace ResultAnalyzer

/-- The nested record fold equals a single fold over the flattened pair list. -/
theorem buildFieldCounts_flatten :
    ∀ (results : List Record) (init : FieldCounts),
      results.foldl (fun fc r => r.foldl recordStep fc) init =
        (results.flatMap id).foldl recordStep init := by
  intro results
  induction results with
  | nil => intro init; rfl
  | cons r rs ih =>
    intro init
    simp only [List.foldl_cons, List.flatMap_cons, id, List.foldl_append]
    exact ih _

/-- `pairVals` distributes over append. -/
theorem pairVals_append (xs ys : List (String × String)) (f : String) :
    pairVals (xs ++ ys) f = pairVals xs f ++ pairVals ys f := by
  simp [pairVals, List.filterMap_append]

/-- The flattened pair list carries the same field values as the records. -/
theorem pairVals_flatten (results : List Record) (f : String) :
    pairVals (results.flatMap id) f = fieldValues results f := by
  induction results with
  | nil => rfl
  | cons r rs ih =>
    simp only [List.flatMap_cons, id, fieldValues, pairVals_append]
    rw [ih]
    rfl

/-- Characterization of the `field_counts` fold over a flat pair list: for a
non-internal field, the recorded value keys are the distinct values in
first-occurrence order and each recorded count is the occurrence count. -/
theorem foldChar (f : String) (hf : ¬ (f = "_time" ∨ f = "_raw")) :
    ∀ pairs : List (String × String),
      keysAt (pairs.foldl recordStep []) f = firstDedup [] (pairVals pairs f) ∧
        ∀ w, countAt (pairs.foldl recordStep []) f w = (pairVals pairs f).count w := by
  intro pairs
  induction pairs using List.reverseRecOn with
  | nil =>
    constructor
    · rfl
    · intro w; rfl
  | append_singleton ps p ih =>
    obtain ⟨k, v⟩ := p
    obtain ⟨ihk, ihc⟩ := ih
    rw [List.foldl_append]
    simp only [List.foldl_cons, List.foldl_nil]
    have hvals : pairVals (ps ++ [(k, v)]) f =
        pairVals ps f ++ (if k = f then [v] else []) := by
      rw [pairVals_append]
      simp only [pairVals, List.filterMap]
      by_cases hk : k = f
      · simp [hk]
      · simp [hk]
    constructor
    · rw [recordStep_keysAt _ k v f hf, hvals, ihk]
      by_cases hk : k = f
      · rw [if_pos hk, if_pos hk, firstDedup_append_one]
        have hmem : v ∈ firstDedup [] (pairVals ps f) ↔ v ∈ pairVals ps f := by
          rw [firstDedup_mem]
          simp
        by_cases hv : v ∈ pairVals ps f
        · rw [if_pos (hmem.mpr hv), if_pos (by simp [hv])]
        · rw [if_neg (fun h => hv (hmem.mp h)), if_neg (by simp [hv])]
      · rw [if_neg hk, if_neg hk]
        simp
    · intro w
      rw [recordStep_countAt _ k v f w hf, hvals, ihc w, List.count_append]
      by_cases hk : k = f
      · simp only [hk, if_true, ite_true, true_and]
        by_cases hv : v = w
        · simp [hv, List.count_singleton]
        · simp [hv, List.count_singleton]
      · simp [hk]

end ResultAnalyzer

namespace ResultAnalyzer

/-- Two distinct values cannot together account for more than the list length. -/
theorem count_pair_le_length {α : Type} [DecidableEq α] (v w : α) (hvw : w ≠ v) :
    ∀ l : List α, l.count w + l.count v ≤ l.length := by
  intro l
  induction l with
  | nil => simp
  | cons a t ih =>
    simp only [List.count_cons, List.length_cons, beq_iff_eq]
    by_cases h1 : a = w <;> by_cases h2 : a = v
    · exact absurd (h1.symm.trans h2) hvw
    · rw [if_pos h1, if_neg h2]
      omega
    · rw [if_neg h1, if_pos h2]
      omega
    · rw [if_neg h1, if_neg h2]
      omega

/-- A field absent from a record yields no values. -/
theorem pairVals_eq_nil_of_not_mem (f : String) :
    ∀ r : Record, f ∉ r.map Prod.fst → pairVals r f = [] := by
  intro r
  induction r with
  | nil => intro _; rfl
  | cons kv t ih =>
    intro hf
    simp only [List.map_cons, List.mem_cons] at hf
    push_neg at hf
    simp only [pairVals, List.filterMap]
    rw [if_neg (fun h => hf.1 h.symm)]
    exact ih hf.2

/-- With unique keys, a record carries at most one value for a field. -/
theorem pairVals_length_le_one (f : String) :
    ∀ r : Record, (r.map Prod.fst).Nodup → (pairVals r f).length ≤ 1 := by
  intro r
  induction r with
  | nil => intro _; simp [pairVals]
  | cons kv t ih =>
    intro hn
    simp only [List.map_cons, List.nodup_cons] at hn
    simp only [pairVals, List.filterMap]
    by_cases hk : kv.1 = f
    · rw [if_pos hk]
      have : pairVals t f = [] :=
        pairVals_eq_nil_of_not_mem f t (fun h => hn.1 (hk ▸ h))
      simp only [pairVals] at this
      simp [this]
    · rw [if_neg hk]
      exact ih hn.2

/-- With unique keys per record, the total number of values for one field is
bounded by the number of records. -/
theorem fieldValues_length_le (f : String) :
    ∀ results : List Record, (∀ r ∈ results, (r.map Prod.fst).Nodup) →
      (fieldValues results f).length ≤ results.length := by
  intro results
  induction results with
  | nil => intro _; simp [fieldValues]
  | cons r rs ih =>
    intro hn
    simp only [fieldValues, List.flatMap_cons, List.length_append, List.length_cons]
    have h1 : (pairVals r f).length ≤ 1 :=
      pairVals_length_le_one f r (hn r (List.mem_cons_self _ _))
    have h2 := ih (fun r' hr' => hn r' (List.mem_cons_of_mem _ hr'))
    simp only [fieldValues] at h2
    omega

/-- Python `max` by count returns the strictly dominant entry. -/
theorem pyMaxBy_dominant (v : String) (c : Nat) :
    ∀ (cs : List (String × Nat)), (v, c) ∈ cs →
      (∀ e ∈ cs, e ≠ (v, c) → e.2 < c) →
      pyMaxBy Prod.snd cs = some (v, c) := by
  have hfold : ∀ (t : List (String × Nat)),
      (∀ e ∈ t, e ≠ (v, c) → e.2 < c) →
      ∀ (best : String × Nat), (best = (v, c) ∨ (best.2 < c ∧ (v, c) ∈ t)) →
      t.foldl (fun best y => if Prod.snd best < Prod.snd y then y else best) best = (v, c) := by
    intro t
    induction t with
    | nil =>
      intro _ best hb
      rcases hb with rfl | ⟨_, hmem⟩
      · rfl
      · simp at hmem
    | cons y ys ih =>
      intro ht best hb
      have ht' : ∀ e ∈ ys, e ≠ (v, c) → e.2 < c :=
        fun e he hne => ht e (List.mem_cons_of_mem _ he) hne
      simp only [List.foldl_cons]
      rcases hb with rfl | ⟨hlt, hmem⟩
      · by_cases hy : y = ((v, c) : String × Nat)
        · subst hy
          rw [if_neg (lt_irrefl _)]
          exact ih ht' _ (Or.inl rfl)
        · have hylt : y.2 < c := ht y (List.mem_cons_self _ _) hy
          rw [if_neg (not_lt.mpr (le_of_lt hylt))]
          exact ih ht' _ (Or.inl rfl)
      · rcases List.mem_cons.mp hmem with rfl | hmem'
        · rw [if_pos hlt]
          exact ih ht' _ (Or.inl rfl)
        · by_cases hy : y = ((v, c) : String × Nat)
          · subst hy
            rw [if_pos hlt]
            exact ih ht' _ (Or.inl rfl)
          · have hylt : y.2 < c := ht y (List.mem_cons_self _ _) hy
            by_cases hby : best.2 < y.2
            · rw [if_pos hby]
              exact ih ht' _ (Or.inr ⟨hylt, hmem'⟩)
            · rw [if_neg hby]
              exact ih ht' _ (Or.inr ⟨hlt, hmem'⟩)
  intro cs hmem hdom
  cases cs with
  | nil => simp at hmem
  | cons x t =>
    have hdom' : ∀ e ∈ t, e ≠ (v, c) → e.2 < c :=
      fun e he hne => hdom e (List.mem_cons_of_mem _ he) hne
    simp only [pyMaxBy]
    rcases List.mem_cons.mp hmem with rfl | hmem'
    · exact congrArg some (hfold t hdom' (v, c) (Or.inl rfl))
    · by_cases hx : x = ((v, c) : String × Nat)
      · exact congrArg some (hfold t hdom' x (Or.inl hx))
      · have hxlt : x.2 < c := hdom x (List.mem_cons_self _ _) hx
        exact congrArg some (hfold t hdom' x (Or.inr ⟨hxlt, hmem'⟩))

end ResultAnalyzer

/-- C9: for every non-empty record list (with well-formed unique keys per
record) in which a field other than `_time`/`_raw` has at most 5 distinct
values and a single value occurring in strictly more than half of the records,
the extracted patterns contain a finding for that field whose pattern is the
dominant value, whose count is its occurrence count, and whose significance is
`high`. -/
theorem extract_patterns_dominant (results : List Record) (intent : Option Intent)
    (f v : String)
    (hne : results ≠ [])
    (hkeys : ∀ r ∈ results, (r.map Prod.fst).Nodup)
    (hft : f ≠ "_time") (hfr : f ≠ "_raw")
    (hcard : ResultAnalyzer.distinctCount results f ≤ 5)
    (hdom : results.length < 2 * ResultAnalyzer.occCount results f v) :
    ∃ p ∈ ResultAnalyzer.extract_patterns results intent,
      p.field = f ∧ p.pattern = v ∧ p.count = ResultAnalyzer.occCount results f v ∧
        p.significance = "high" := by
  classical
  have hf : ¬ (f = "_time" ∨ f = "_raw") := by
    rintro (h | h)
    · exact hft h
    · exact hfr h
  obtain ⟨hkeysEq, hcnt⟩ := ResultAnalyzer.foldChar f hf (results.flatMap id)
  have hbuild : ResultAnalyzer.buildFieldCounts results =
      (results.flatMap id).foldl ResultAnalyzer.recordStep [] :=
    ResultAnalyzer.buildFieldCounts_flatten results []
  have hpair : ResultAnalyzer.pairVals (results.flatMap id) f =
      ResultAnalyzer.fieldValues results f :=
    ResultAnalyzer.pairVals_flatten results f
  have hK : ResultAnalyzer.keysAt (ResultAnalyzer.buildFieldCounts results) f =
      firstDedup [] (ResultAnalyzer.fieldValues results f) := by
    rw [hbuild, hkeysEq, hpair]
  have hC : ∀ w, ResultAnalyzer.countAt (ResultAnalyzer.buildFieldCounts results) f w =
      (ResultAnalyzer.fieldValues results f).count w := by
    intro w
    rw [hbuild, hcnt w, hpair]
  have hpos : 0 < (ResultAnalyzer.fieldValues results f).count v := by
    unfold ResultAnalyzer.occCount at hdom
    omega
  have hvmem : v ∈ ResultAnalyzer.fieldValues results f := List.count_pos_iff.mp hpos
  have hvk : v ∈ ResultAnalyzer.keysAt (ResultAnalyzer.buildFieldCounts results) f := by
    rw [hK]
    exact (firstDedup_mem _ [] v).mpr ⟨hvmem, by simp⟩
  obtain ⟨counts, hcounts⟩ : ∃ cs,
      alookup f (ResultAnalyzer.buildFieldCounts results) = some cs := by
    cases hal : alookup f (ResultAnalyzer.buildFieldCounts results) with
    | none =>
      exfalso
      unfold ResultAnalyzer.keysAt at hvk
      rw [hal] at hvk
      simp at hvk
    | some cs => exact ⟨cs, rfl⟩
  have hkeys2 : counts.map Prod.fst = firstDedup [] (ResultAnalyzer.fieldValues results f) := by
    unfold ResultAnalyzer.keysAt at hK
    rw [hcounts] at hK
    simpa using hK
  have hnodup : (counts.map Prod.fst).Nodup := by
    rw [hkeys2]
    exact firstDedup_nodup _ []
  have hmemcnt : ∀ w c', (w, c') ∈ counts →
      c' = (ResultAnalyzer.fieldValues results f).count w := by
    intro w c' hm
    have hal := alookup_of_nodup_mem counts hnodup w c' hm
    have h2 := hC w
    unfold ResultAnalyzer.countAt at h2
    rw [hcounts] at h2
    simp only [Option.getD_some] at h2
    rw [hal] at h2
    simpa using h2
  have hvk2 : v ∈ counts.map Prod.fst := by
    rw [hkeys2]
    exact (firstDedup_mem _ [] v).mpr ⟨hvmem, by simp⟩
  obtain ⟨a, hamem, haeq⟩ := List.mem_map.mp hvk2
  obtain ⟨w0, c0⟩ := a
  have hw0v : w0 = v := haeq
  subst hw0v
  have hc0 : c0 = (ResultAnalyzer.fieldValues results f).count w0 := hmemcnt w0 c0 hamem
  have hdome : ∀ e ∈ counts, e ≠ (w0, c0) → e.2 < c0 := by
    rintro ⟨w, c'⟩ he hne
    have hcw : c' = (ResultAnalyzer.fieldValues results f).count w := hmemcnt w c' he
    by_cases hwv : w = w0
    · subst hwv
      exfalso
      exact hne (by rw [hcw, hc0])
    · have hb := ResultAnalyzer.count_pair_le_length w0 w hwv
        (ResultAnalyzer.fieldValues results f)
      have hlen := ResultAnalyzer.fieldValues_length_le f results hkeys
      unfold ResultAnalyzer.occCount at hdom
      show c' < c0
      rw [hcw, hc0]
      omega
  have hpy : pyMaxBy Prod.snd counts = some (w0, c0) :=
    ResultAnalyzer.pyMaxBy_dominant w0 c0 counts hamem hdome
  have hlen5 : counts.length ≤ 5 := by
    have hlm : counts.length = (counts.map Prod.fst).length := (List.length_map _ _).symm
    rw [hlm, hkeys2]
    exact hcard
  have hfcmem : (f, counts) ∈ ResultAnalyzer.buildFieldCounts results :=
    alookup_mem _ f counts hcounts
  set entities := ((intent.map Intent.entities).getD []).map lowerStr with hent
  set symptom_keywords := ((intent.map Intent.symptom_keywords).getD []).map lowerStr with hsk
  set matched := (entities.any (fun e =>
      strContains (lowerStr w0) e || strContains e (lowerStr w0)) ||
    symptom_keywords.any (fun k =>
      strContains (lowerStr w0) k || strContains k (lowerStr w0))) with hmat
  have hg : ResultAnalyzer.patternOf results.length entities symptom_keywords (f, counts) =
      some { field := f, pattern := w0, count := c0,
             significance := if matched then "high"
               else if results.length < c0 * 2 then "high" else "medium",
             matches_intent := matched } := by
    unfold ResultAnalyzer.patternOf
    rw [if_pos hlen5]
    simp only [hpy]
  have hsig : (if matched then "high"
      else if results.length < c0 * 2 then "high" else "medium") = "high" := by
    by_cases hm : matched
    · rw [if_pos hm]
    · rw [if_neg hm, if_pos (by
        unfold ResultAnalyzer.occCount at hdom
        omega)]
  refine ⟨{ field := f, pattern := w0, count := c0,
            significance := if matched then "high"
              else if results.length < c0 * 2 then "high" else "medium",
            matches_intent := matched }, ?_, rfl, rfl, ?_, hsig⟩
  · show _ ∈ ResultAnalyzer.extract_patterns results intent
    unfold ResultAnalyzer.extract_patterns
    refine (List.perm_insertionSort ResultAnalyzer.patternOrder _).mem_iff.mpr ?_
    exact List.mem_filterMap.mpr ⟨(f, counts), hfcmem, hg⟩
  · show c0 = ResultAnalyzer.occCount results f w0
    exact hc0

/-- Concrete record set for the dominant-pattern witness: `status=500` occurs
in 2 of 3 records (a strict majority) and `status` has 2 distinct values. -/
def dominantRecords : List Record :=
  [[("status", "500"), ("service", "checkout")], [("status", "500")], [("status", "200")]]

/-- C9 witness: the dominant-value hypothesis holds on `dominantRecords` and
the extractor therefore reports `status=500` with count 2 and significance
`high`. -/
theorem extract_patterns_dominant_witness :
    (dominantRecords ≠ [] ∧
      dominantRecords.length < 2 * ResultAnalyzer.occCount dominantRecords "status" "500" ∧
      ResultAnalyzer.distinctCount dominantRecords "status" ≤ 5) ∧
      ∃ p ∈ ResultAnalyzer.extract_patterns dominantRecords none,
        p.field = "status" ∧ p.pattern = "500" ∧
          p.count = ResultAnalyzer.occCount dominantRecords "status" "500" ∧
          p.significance = "high" :=
  ⟨⟨by decide, by decide, by decide⟩,
   extract_patterns_dominant dominantRecords none "status" "500" (by decide) (by decide)
     (by decide) (by decide) (by decide) (by decide)⟩

/-! ## Orchestrator models and investigation loops
(src/orchestrator/models.py, src/orchestrator/orchestrator.py) -/

/-- The `InvestigationStep` pydantic model: exactly these six fields — the
model declares NO raw-result field. -/
structure InvestigationStep where
  step_number : Int
  hypothesis : String
  spl_query : String
  results_summary : String
  findings : List Finding
  timestamp : Int
deriving Repr, DecidableEq

/-- A value inside a step dict. -/
inductive StepVal where
  | vInt (n : Int)
  | vStr (s : String)
  | vFindings (fs : List Finding)
  | vTime (t : Int)
  | vResults (r : QueryResults)
deriving Repr, DecidableEq

/-- Pydantic `step.dict()`: emits exactly the declared model fields — in
particular there is no `"results"` key, because `InvestigationStep` has no
such field. -/
def InvestigationStep.toDict (st : InvestigationStep) : List (String × StepVal) :=
  [("step_number", .vInt st.step_number), ("hypothesis", .vStr st.hypothesis),
   ("spl_query", .vStr st.spl_query), ("results_summary", .vStr st.results_summary),
   ("findings", .vFindings st.findings), ("timestamp", .vTime st.timestamp)]

namespace RCAEngine

/-- `step.get("results", {})` followed by `.get("results", [])` in
`_build_event_timeline` / `_extract_error_patterns`: a missing `"results"` key
degrades to no records. -/
def stepResults (d : List (String × StepVal)) : List Record :=
  match alookup "results" d with
  | some (.vResults r) => r.results
  | _ => []

/-- `RCAEngine._index_to_service`: first catalog service whose lowered Splunk
indexes contain the lowered index, else the raw index. -/
def index_to_service (c : Catalog) (index : String) : String :=
  match c.services.find? (fun p =>
    (ServiceCatalog.get_splunk_indexes c p.1).any
      (fun idx => lowerStr idx = lowerStr index)) with
  | some p => p.1
  | none => index

/-- `RCAEngine._extract_service`. -/
def extract_service (c : Catalog) (item : Record) : String :=
  index_to_service c ((alookup "index" item).getD ((alookup "source" item).getD ""))

/-- Ascending stable order on timestamp strings
(`events.sort(key=lambda x: x.get("timestamp", ""))`). -/
def tsLE (a b : TimelineEvent) : Prop := strLt b.timestamp a.timestamp = false

instance : DecidableRel tsLE := fun a b =>
  inferInstanceAs (Decidable (strLt b.timestamp a.timestamp = false))

/-- `RCAEngine._build_event_timeline` over step dicts. -/
def build_event_timeline (c : Catalog) (steps : List (List (String × StepVal))) :
    List TimelineEvent :=
  let events := steps.flatMap (fun d =>
    (stepResults d).filterMap (fun r =>
      match alookup "_time" r with
      | some ts =>
        if ts ≠ "" ∧ is_error_result r then
          some { timestamp := ts, service := extract_service c r }
        else none
      | none => none))
  List.insertionSort tsLE events

end RCAEngine

/-- C2: an `InvestigationStep` cannot carry the raw result set — the pydantic
model has no `results` field, so every step dict lacks the `"results"` key and
the RCA timeline builder sees zero events from any orchestrator-produced step
list, however many raw error records the queries returned. -/
theorem investigation_step_has_no_results (c : Catalog) (steps : List InvestigationStep) :
    (∀ st : InvestigationStep, alookup "results" st.toDict = none) ∧
      RCAEngine.build_event_timeline c (steps.map InvestigationStep.toDict) = [] := by
  have hnone : ∀ st : InvestigationStep, alookup "results" st.toDict = none := by
    intro st
    rfl
  refine ⟨hnone, ?_⟩
  have hempty : ∀ st : InvestigationStep, RCAEngine.stepResults st.toDict = [] := by
    intro st
    unfold RCAEngine.stepResults
    rw [hnone st]
  have h2 : (steps.map InvestigationStep.toDict).flatMap (fun d =>
      (RCAEngine.stepResults d).filterMap (fun r =>
        match alookup "_time" r with
        | some ts =>
          if ts ≠ "" ∧ RCAEngine.is_error_result r then
            some ({ timestamp := ts, service := RCAEngine.extract_service c r } : TimelineEvent)
          else none
        | none => none)) = [] := by
    rw [List.flatMap_eq_nil_iff]
    intro l hl
    obtain ⟨st, _, rfl⟩ := List.mem_map.mp hl
    rw [hempty st]
    rfl
  simp only [RCAEngine.build_event_timeline, h2]
  rfl

/-- An investigation hypothesis (`InvestigationHypothesis` model). -/
structure InvestigationHypothesis where
  hypothesis : String
  priority : Int := 0
  query_template : Option String := none
deriving Repr, DecidableEq

namespace InvestigationOrchestrator

/-- The zero-result substitute used when query execution raises
(`query_results = {"results": [], "total_count": 0, "fields": [], …}`). -/
def degradedResults : QueryResults := { results := [], total_count := 0, fields := [] }

/-- The primary hypothesis loop of `InvestigationOrchestrator.investigate`:
for each hypothesis, generate a query (`gen`), execute it (`execQ`, the only
call wrapped in `try`; a failure degrades to `degradedResults`), analyze, and
append one step; stop early on sufficient evidence. -/
def investigationLoop (gen : InvestigationHypothesis → String)
    (execQ : String → Except String QueryResults)
    (intent : Option Intent) (now : Int) :
    Nat → List InvestigationHypothesis → List InvestigationStep
  | _, [] => []
  | idx, h :: rest =>
    let spl_query := gen h
    let query_results :=
      match execQ spl_query with
      | .ok r => r
      | .error _ => degradedResults
    let analysis := ResultAnalyzer.analyze query_results h.hypothesis intent
    let step : InvestigationStep :=
      { step_number := (idx : Int), hypothesis := h.hypothesis, spl_query := spl_query,
        results_summary := analysis.summary, findings := analysis.findings,
        timestamp := now }
    step ::
      (if analysis.sufficient_evidence then []
       else investigationLoop gen execQ intent now (idx + 1) rest)

/-- The per-service hypothesis text of `_investigate_upstream_dependencies`. -/
def upstreamHypothesis (failure_modes : List String) (svc : String) : String :=
  if ¬ failure_modes.isEmpty then
    "Check upstream service " ++ svc ++ " for " ++
      String.intercalate ", " failure_modes ++ " errors"
  else
    "Check upstream service " ++ svc ++ " for errors that may have cascaded downstream"

/-- The upstream-tracing loop of `_investigate_upstream_dependencies`: services
with no Splunk indexes are skipped; the whole generate/execute/analyze/append
block sits in one `try`, so on failure NO step is appended (the step number is
not advanced either) and the loop continues with the next service. -/
def upstreamLoop (c : Catalog) (gen : String → String)
    (execQ : String → Except String QueryResults)
    (fmodes : String → List String) (intent : Option Intent) (now : Int) :
    Nat → List String → List InvestigationStep
  | _, [] => []
  | step_number, svc :: rest =>
    if (ServiceCatalog.get_splunk_indexes c svc).isEmpty then
      upstreamLoop c gen execQ fmodes intent now step_number rest
    else
      let hypothesis := upstreamHypothesis (fmodes svc) svc
      let spl_query := gen hypothesis
      match execQ spl_query with
      | .error _ => upstreamLoop c gen execQ fmodes intent now step_number rest
      | .ok query_results =>
        let analysis := ResultAnalyzer.analyze query_results hypothesis intent
        { step_number := (step_number : Int), hypothesis := hypothesis,
          spl_query := spl_query, results_summary := analysis.summary,
          findings := analysis.findings, timestamp := now } ::
          upstreamLoop c gen execQ fmodes intent now (step_number + 1) rest

end InvestigationOrchestrator

/-- One-service catalog for the upstream-drop counterexample: `svc-b` exists
and has a Splunk index, so it is not skipped by the index guard. -/
def upstreamCatalog : Catalog :=
  ⟨[("svc-b", { primary_indexes := ["idx-b"] })]⟩

/-- C3, counterexample: in the upstream-tracing phase a failed query execution
drops the step entirely — with one traceable service whose query raises, the
returned step list is empty instead of containing an empty-result step. -/
theorem upstream_failed_query_drops_step :
    InvestigationOrchestrator.upstreamLoop upstreamCatalog (fun _ => "search index=idx-b")
      (fun _ => Except.error "splunk unavailable") (fun _ => []) none 0 3 ["svc-b"] = [] := by
  decide

/-- C3 (amended): in the primary hypothesis loop a failed query execution
still appends a step with zero findings for every hypothesis and the loop
runs to exhaustion; in the upstream-tracing phase a failure during a
service's step drops that step entirely (nothing is appended for it) while
the loop continues with the remaining services — in neither phase does a
failure abort the investigation. -/
theorem failed_query_step_semantics (gen : InvestigationHypothesis → String)
    (genU : String → String) (c : Catalog) (fmodes : String → List String)
    (intent : Option Intent) (now : Int) (msg : String) :
    (∀ (idx : Nat) (hyps : List InvestigationHypothesis),
      (InvestigationOrchestrator.investigationLoop gen (fun _ => Except.error msg)
          intent now idx hyps).length = hyps.length ∧
        ∀ st ∈ InvestigationOrchestrator.investigationLoop gen (fun _ => Except.error msg)
          intent now idx hyps, st.findings = []) ∧
      ∀ (n : Nat) (services : List String),
        InvestigationOrchestrator.upstreamLoop c genU (fun _ => Except.error msg)
          fmodes intent now n services = [] := by
  constructor
  · intro idx hyps
    induction hyps generalizing idx with
    | nil =>
      refine ⟨rfl, ?_⟩
      intro st h
      rw [show InvestigationOrchestrator.investigationLoop gen (fun _ => Except.error msg)
        intent now idx [] = [] from rfl] at h
      simp at h
    | cons h rest ih =>
      simp only [InvestigationOrchestrator.investigationLoop]
      have hana : ResultAnalyzer.analyze InvestigationOrchestrator.degradedResults
          h.hypothesis intent =
          { summary := ResultAnalyzer.generate_summary 0 [] h.hypothesis,
            findings := [], result_count := 0, sufficient_evidence := false } := rfl
      rw [hana]
      simp only [Bool.false_eq_true, if_false, ite_false]
      obtain ⟨ihl, ihf⟩ := ih (idx + 1)
      constructor
      · simp [ihl]
      · intro st hst
        rcases List.mem_cons.mp hst with rfl | hmem
        · rfl
        · exact ihf st hmem
  · intro n services
    induction services generalizing n with
    | nil => rfl
    | cons svc rest ih =>
      simp only [InvestigationOrchestrator.upstreamLoop]
      by_cases hidx : (ServiceCatalog.get_splunk_indexes c svc).isEmpty
      · rw [if_pos hidx]
        exact ih n
      · rw [if_neg hidx]
        exact ih n

/-! ## Time-window handling in `investigate` (src/orchestrator/orchestrator.py) -/

/-- A naive Python `datetime`, split into its calendar date (as a day number
in the proleptic calendar) and its time of day in seconds.  A canonical
datetime has `0 ≤ tod < 86400`. -/
structure PyDateTime where
  day : Int
  tod : Int
deriving Repr, DecidableEq

namespace InvestigationOrchestrator

/-- Python `start_time > end_time` on datetimes: lexicographic on
(date, time-of-day). -/
def dtGT (a b : PyDateTime) : Prop := b.day < a.day ∨ (a.day = b.day ∧ b.tod < a.tod)

instance : DecidableRel dtGT := fun a b =>
  inferInstanceAs (Decidable (b.day < a.day ∨ (a.day = b.day ∧ b.tod < a.tod)))

/-- `end_time - start_time` in seconds (exact timedelta). -/
def diffSec (a b : PyDateTime) : Int := (a.day - b.day) * 86400 + (a.tod - b.tod)

/-- `dt + timedelta(seconds=s)`, renormalized to a canonical datetime. -/
def addSec (a : PyDateTime) (s : Int) : PyDateTime :=
  { day := a.day + (a.tod + s).ediv 86400, tod := (a.tod + s).emod 86400 }

/-- The day number of the pinned date 2026-01-09
(`start_time.replace(year=2026, month=1, day=9)` keeps the time of day). -/
def day_2026_01_09 : Int := 20462

/-- The effective query window computed by `investigate`: swap if start is
after end, pin the start's calendar date to 2026-01-09 keeping its time of
day, and set the end to that start plus the original window duration. -/
def effective_time_window (start_time end_time : PyDateTime) :
    PyDateTime × PyDateTime :=
  let p := if dtGT start_time end_time then (end_time, start_time)
    else (start_time, end_time)
  let window_delta := diffSec p.2 p.1
  let s' : PyDateTime := { day := day_2026_01_09, tod := p.1.tod }
  (s', addSec s' window_delta)

/-- Shift a datetime by whole days, keeping the time of day. -/
def shiftDays (k : Int) (a : PyDateTime) : PyDateTime := { day := a.day + k, tod := a.tod }

end InvestigationOrchestrator

/-- C7: after parsing (and swapping when start is after end), the effective
window's start is the swapped start's time-of-day on the fixed date
2026-01-09, the effective end is that start plus the original window
duration, and the result is invariant under shifting both requested calendar
dates by any number of days — the caller's dates are never used as-is. -/
theorem effective_time_window_pins_date (a b : PyDateTime) (k : Int)
    (ha : 0 ≤ a.tod ∧ a.tod < 86400) (hb : 0 ≤ b.tod ∧ b.tod < 86400) :
    (InvestigationOrchestrator.effective_time_window a b).1 =
        { day := InvestigationOrchestrator.day_2026_01_09,
          tod := (if InvestigationOrchestrator.dtGT a b then b else a).tod } ∧
      (InvestigationOrchestrator.effective_time_window a b).2 =
        InvestigationOrchestrator.addSec
          (InvestigationOrchestrator.effective_time_window a b).1
          (InvestigationOrchestrator.diffSec
            (if InvestigationOrchestrator.dtGT a b then a else b)
            (if InvestigationOrchestrator.dtGT a b then b else a)) ∧
      InvestigationOrchestrator.effective_time_window
          (InvestigationOrchestrator.shiftDays k a)
          (InvestigationOrchestrator.shiftDays k b) =
        InvestigationOrchestrator.effective_time_window a b := by
  have hshift : InvestigationOrchestrator.dtGT (InvestigationOrchestrator.shiftDays k a)
      (InvestigationOrchestrator.shiftDays k b) ↔ InvestigationOrchestrator.dtGT a b := by
    unfold InvestigationOrchestrator.dtGT InvestigationOrchestrator.shiftDays
    dsimp only
    constructor
    · rintro (h | ⟨h1, h2⟩)
      · exact Or.inl (by omega)
      · exact Or.inr ⟨by omega, h2⟩
    · rintro (h | ⟨h1, h2⟩)
      · exact Or.inl (by omega)
      · exact Or.inr ⟨by omega, h2⟩
  by_cases hgt : InvestigationOrchestrator.dtGT a b
  · refine ⟨?_, ?_, ?_⟩
    · simp [InvestigationOrchestrator.effective_time_window, hgt]
    · simp [InvestigationOrchestrator.effective_time_window, hgt]
    · have hgt' := hshift.mpr hgt
      simp only [InvestigationOrchestrator.effective_time_window, if_pos hgt, if_pos hgt']
      unfold InvestigationOrchestrator.diffSec InvestigationOrchestrator.shiftDays
      dsimp only
      have hd : ∀ x y : Int, x + k - (y + k) = x - y := fun x y => by ring
      rw [hd]
  · refine ⟨?_, ?_, ?_⟩
    · simp [InvestigationOrchestrator.effective_time_window, hgt]
    · simp [InvestigationOrchestrator.effective_time_window, hgt]
    · have hgt' := fun h => hgt (hshift.mp h)
      simp only [InvestigationOrchestrator.effective_time_window, if_neg hgt, if_neg hgt']
      unfold InvestigationOrchestrator.diffSec InvestigationOrchestrator.shiftDays
      dsimp only
      have hd : ∀ x y : Int, x + k - (y + k) = x - y := fun x y => by ring
      rw [hd]

/-- C7 witness: a concrete window whose start lies after its end (so the swap
fires), evaluated at a 7-day shift of both dates. -/
theorem effective_time_window_pins_date_witness :
    (0 ≤ (20300 : Int) ∧ (20300 : Int) < 86400) ∧
      (InvestigationOrchestrator.effective_time_window ⟨20310, 36000⟩ ⟨20250, 20300⟩).1 =
          { day := InvestigationOrchestrator.day_2026_01_09,
            tod := (if InvestigationOrchestrator.dtGT ⟨20310, 36000⟩ ⟨20250, 20300⟩
              then (⟨20250, 20300⟩ : PyDateTime) else ⟨20310, 36000⟩).tod } ∧
        (InvestigationOrchestrator.effective_time_window ⟨20310, 36000⟩ ⟨20250, 20300⟩).2 =
          InvestigationOrchestrator.addSec
            (InvestigationOrchestrator.effective_time_window ⟨20310, 36000⟩ ⟨20250, 20300⟩).1
            (InvestigationOrchestrator.diffSec
              (if InvestigationOrchestrator.dtGT ⟨20310, 36000⟩ ⟨20250, 20300⟩
                then (⟨20310, 36000⟩ : PyDateTime) else ⟨20250, 20300⟩)
              (if InvestigationOrchestrator.dtGT ⟨20310, 36000⟩ ⟨20250, 20300⟩
                then (⟨20250, 20300⟩ : PyDateTime) else ⟨20310, 36000⟩)) ∧
        InvestigationOrchestrator.effective_time_window
            (InvestigationOrchestrator.shiftDays 7 ⟨20310, 36000⟩)
            (InvestigationOrchestrator.shiftDays 7 ⟨20250, 20300⟩) =
          InvestigationOrchestrator.effective_time_window ⟨20310, 36000⟩ ⟨20250, 20300⟩ :=
  ⟨by decide,
   effective_time_window_pins_date ⟨20310, 36000⟩ ⟨20250, 20300⟩ 7
     (by decide) (by decide)⟩

/-! ## Dependency-chain traversal (ServiceCatalog.get_dependency_chain) -/

namespace ServiceCatalog

/-- The neighbours visited by `traverse` for one service: for `upstream`, the
(fuzzily resolved) upstream dependency ids, skipping falsy (empty) ids; for
any other direction, the downstream services. -/
def chainAdj (c : Catalog) (direction : String) (s : String) : List String :=
  if direction = "upstream" then
    (get_upstream_dependencies c s).filterMap (fun d =>
      if d.service = "" then none else some d.service)
  else
    get_downstream_dependencies c s

/-- Every service id the traversal can ever reach: the start id, the catalog
keys and every declared upstream target. -/
def chainUniverse (c : Catalog) (start : String) : List String :=
  start :: (c.services.map Prod.fst ++
    c.services.flatMap (fun p => p.2.upstream.map DepEntry.service))

/-- A resolved service's data is one of the catalog's entries. -/
theorem find_service_mem (c : Catalog) (name : String) (sd : ServiceData)
    (h : find_service c name = some sd) : ∃ id, (id, sd) ∈ c.services := by
  unfold find_service at h
  cases hal : alookup name c.services with
  | some s =>
    rw [hal] at h
    cases h
    exact ⟨name, alookup_mem _ name sd hal⟩
  | none =>
    rw [hal] at h
    dsimp only at h
    cases hf1 : c.services.find? (fun p => lowerStr p.1 = lowerStr name) with
    | some p =>
      rw [hf1] at h
      cases h
      exact ⟨p.1, by simpa using List.mem_of_find?_eq_some hf1⟩
    | none =>
      rw [hf1] at h
      cases hf2 : c.services.find? (fun p =>
          strContains (lowerStr p.1) (lowerStr name) ||
            strContains (lowerStr name) (lowerStr p.1)) with
      | some p =>
        rw [hf2] at h
        cases h
        exact ⟨p.1, by simpa using List.mem_of_find?_eq_some hf2⟩
      | none =>
        rw [hf2] at h
        cases h

/-- Every neighbour lies in the traversal universe. -/
theorem chainAdj_mem (c : Catalog) (direction start : String) :
    ∀ s, ∀ d ∈ chainAdj c direction s, d ∈ chainUniverse c start := by
  intro s d hd
  unfold chainAdj at hd
  unfold chainUniverse
  by_cases hdir : direction = "upstream"
  · rw [if_pos hdir] at hd
    obtain ⟨dep, hdep, hde⟩ := List.mem_filterMap.mp hd
    have hde2 : dep.service = d := by
      by_cases hds : dep.service = ""
      · rw [if_pos hds] at hde
        cases hde
      · rw [if_neg hds] at hde
        cases hde
        rfl
    unfold get_upstream_dependencies at hdep
    cases hfs : find_service c s with
    | none =>
      rw [hfs] at hdep
      simp at hdep
    | some sd =>
      rw [hfs] at hdep
      have hdep2 : dep ∈ sd.upstream := hdep
      obtain ⟨id, hmem⟩ := find_service_mem c s sd hfs
      refine List.mem_cons_of_mem _ (List.mem_append.mpr (Or.inr ?_))
      exact List.mem_flatMap.mpr ⟨(id, sd), hmem, hde2 ▸ List.mem_map_of_mem _ hdep2⟩
  · rw [if_neg hdir] at hd
    unfold get_downstream_dependencies at hd
    obtain ⟨p, hp, hmem⟩ := List.mem_flatMap.mp hd
    obtain ⟨dep, _, hde⟩ := List.mem_filterMap.mp hmem
    have : d = p.1 := by
      by_cases hds : dep.service = s
      · rw [if_pos hds] at hde
        cases hde
        rfl
      · rw [if_neg hds] at hde
        cases hde
    refine List.mem_cons_of_mem _ (List.mem_append.mpr (Or.inl ?_))
    exact this ▸ List.mem_map_of_mem _ hp

/-- Filtering with a strictly weaker predicate on a list that contains a
separating element gives a strictly shorter result. -/
theorem filter_length_lt {α : Type} (p q : α → Bool) (x : α) :
    ∀ l : List α, x ∈ l → p x = true → q x = false →
      (∀ y, q y = true → p y = true) →
      (l.filter q).length < (l.filter p).length := by
  intro l
  induction l with
  | nil => intro h; simp at h
  | cons a t ih =>
    intro hx hpx hqx himp
    have hle : (t.filter q).length ≤ (t.filter p).length :=
      List.Sublist.length_le (List.monotone_filter_right t
        (fun y (hy : q y = true) => himp y hy))
    simp only [List.filter_cons]
    rcases List.mem_cons.mp hx with rfl | hmem
    · rw [if_neg (by simp [hqx]), if_pos hpx]
      simp only [List.length_cons]
      omega
    · cases hqa : q a with
      | true =>
        rw [if_pos rfl, if_pos (himp a hqa)]
        simp only [List.length_cons]
        exact Nat.succ_lt_succ (ih hmem hpx hqx himp)
      | false =>
        cases hpa : p a with
        | true =>
          rw [if_neg (by simp), if_pos rfl]
          exact Nat.lt_succ_of_lt (ih hmem hpx hqx himp)
        | false =>
          rw [if_neg (by simp), if_neg (by simp)]
          exact ih hmem hpx hqx himp

/-- The depth-first `traverse` of `get_dependency_chain`, with the shared
`visited` set and `chain` accumulator made explicit, and the recursion
expressed on an explicit stack (the source recurses on each neighbour in
order, which is the same pre-order walk).  The `univ` argument and the
membership proofs only serve termination: each newly visited node strictly
shrinks the unvisited part of the finite universe. -/
def dfsChain (adj : String → List String) (univ : List String)
    (hadj : ∀ s, ∀ d ∈ adj s, d ∈ univ) :
    (visited chain stack : List String) → (∀ s ∈ stack, s ∈ univ) → List String
  | _, chain, [], _ => chain
  | visited, chain, cur :: rest, hs =>
    if h : cur ∈ visited then
      dfsChain adj univ hadj visited chain rest
        (fun s hm => hs s (List.mem_cons_of_mem _ hm))
    else
      dfsChain adj univ hadj (cur :: visited) (chain ++ [cur]) (adj cur ++ rest)
        (fun s hm => (List.mem_append.mp hm).elim (fun h1 => hadj cur s h1)
          (fun h2 => hs s (List.mem_cons_of_mem _ h2)))
termination_by visited _ stack _ =>
  ((univ.filter (fun s => decide (s ∉ visited))).length, stack.length)
decreasing_by
  · apply Prod.Lex.right
    simp
  · apply Prod.Lex.left
    apply filter_length_lt _ _ cur
    · exact hs cur (List.mem_cons_self _ _)
    · simpa using h
    · simp
    · intro y hy
      simp only [decide_eq_true_eq] at hy ⊢
      exact fun hmem => hy (List.mem_cons_of_mem _ hmem)

/-- `ServiceCatalog.get_dependency_chain`. -/
def get_dependency_chain (c : Catalog) (service_id : String)
    (direction : String) : List String :=
  dfsChain (chainAdj c direction) (chainUniverse c service_id)
    (chainAdj_mem c direction service_id) [] [] [service_id]
    (fun s hm => by
      rcases List.mem_cons.mp hm with rfl | hm2
      · exact List.mem_cons_self _ _
      · simp at hm2)

end ServiceCatalog

namespace ServiceCatalog

/-- The DFS only ever appends fresh nodes: starting from a duplicate-free
chain contained in the visited set, the result extends the chain and stays
duplicate-free. -/
theorem dfsChain_spec (adj : String → List String) (univ : List String)
    (hadj : ∀ s, ∀ d ∈ adj s, d ∈ univ) :
    ∀ (visited chain stack : List String) (hs : ∀ s ∈ stack, s ∈ univ),
      chain.Nodup → (∀ x ∈ chain, x ∈ visited) →
      ∃ t, dfsChain adj univ hadj visited chain stack hs = chain ++ t ∧
        (chain ++ t).Nodup := by
  intro visited chain stack hs
  induction visited, chain, stack, hs using dfsChain.induct adj univ hadj with
  | case1 visited chain hs _ =>
    intro hnd _
    exact ⟨[], by simp [dfsChain], by simpa using hnd⟩
  | case2 visited chain cur rest hs h _ ih =>
    intro hnd hsub
    obtain ⟨t, heq, hnd'⟩ := ih hnd hsub
    refine ⟨t, ?_, hnd'⟩
    rw [← heq]
    rw [dfsChain]
    rw [dif_pos h]
  | case3 visited chain cur rest hs h _ ih =>
    intro hnd hsub
    have hcur : cur ∉ chain := fun hmem => h (hsub cur hmem)
    have hnd2 : (chain ++ [cur]).Nodup := by
      simp [List.nodup_append, hnd, hcur]
    have hsub2 : ∀ x ∈ chain ++ [cur], x ∈ cur :: visited := by
      intro x hx
      rcases List.mem_append.mp hx with hx1 | hx1
      · exact List.mem_cons_of_mem _ (hsub x hx1)
      · simp at hx1
        simp [hx1]
    obtain ⟨t, heq, hnd'⟩ := ih hnd2 hsub2
    refine ⟨[cur] ++ t, ?_, by simpa [List.append_assoc] using hnd'⟩
    rw [← List.append_assoc, ← heq]
    rw [dfsChain]
    rw [dif_neg h]

end ServiceCatalog

/-- C10: for every catalog — cyclic upstream declarations included — and every
start service and direction, `get_dependency_chain` terminates (it is a total
function here, with a termination measure on the unvisited part of the finite
universe) and returns a pre-order walk that starts at the given id and lists
each service id at most once. -/
theorem get_dependency_chain_nodup_starts (c : Catalog) (service_id direction : String) :
    (ServiceCatalog.get_dependency_chain c service_id direction).Nodup ∧
      (ServiceCatalog.get_dependency_chain c service_id direction).head? =
        some service_id := by
  unfold ServiceCatalog.get_dependency_chain
  rw [ServiceCatalog.dfsChain]
  rw [dif_neg (by simp : ¬ service_id ∈ ([] : List String))]
  obtain ⟨t, heq, hnd⟩ := ServiceCatalog.dfsChain_spec
    (ServiceCatalog.chainAdj c direction) (ServiceCatalog.chainUniverse c service_id)
    (ServiceCatalog.chainAdj_mem c direction service_id)
    (service_id :: []) ([] ++ [service_id])
    (ServiceCatalog.chainAdj c direction service_id ++ []) _
    (by simp) (by simp)
  rw [heq]
  constructor
  · simpa using hnd
  · simp

/-- C6 witness: the ranking invariants instantiated at a concrete input (a
cascade origin plus an upstream failure on the same service). -/
theorem rank_root_causes_invariants_witness :
    (RCAEngine.rank_root_causes []
        { detected := true, chain := [("svc-a", "svc-x")], origin_service := some "svc-a" }
        {} { upstream_failures := [{ service := "svc-a", affected := "svc-x" }] }).length ≤ 5 ∧
      ((RCAEngine.rank_root_causes []
        { detected := true, chain := [("svc-a", "svc-x")], origin_service := some "svc-a" }
        {} { upstream_failures := [{ service := "svc-a", affected := "svc-x" }] }).map
          RootCause.service).Nodup ∧
      ∀ c ∈ RCAEngine.rank_root_causes []
          { detected := true, chain := [("svc-a", "svc-x")], origin_service := some "svc-a" }
          {} { upstream_failures := [{ service := "svc-a", affected := "svc-x" }] },
        ∀ c' ∈ RCAEngine.rank_candidates []
          { detected := true, chain := [("svc-a", "svc-x")], origin_service := some "svc-a" }
          {} { upstream_failures := [{ service := "svc-a", affected := "svc-x" }] },
        c'.service = c.service → c'.confidence ≤ c.confidence :=
  RCAEngine.rank_root_causes_invariants []
    { detected := true, chain := [("svc-a", "svc-x")], origin_service := some "svc-a" }
    {} { upstream_failures := [{ service := "svc-a", affected := "svc-x" }] }

/-- C2 witness: the no-results fact instantiated at a concrete catalog and a
concrete step. -/
theorem investigation_step_has_no_results_witness :
    (∀ st : InvestigationStep, alookup "results" st.toDict = none) ∧
      RCAEngine.build_event_timeline upstreamCatalog
        ([{ step_number := 1, hypothesis := "h", spl_query := "q",
            results_summary := "", findings := [], timestamp := 0 }].map
          InvestigationStep.toDict) = [] :=
  investigation_step_has_no_results upstreamCatalog
    [{ step_number := 1, hypothesis := "h", spl_query := "q",
       results_summary := "", findings := [], timestamp := 0 }]

/-- C3 witness: the degraded-step semantics instantiated at concrete
generators, catalog and error message. -/
theorem failed_query_step_semantics_witness :
    (∀ (idx : Nat) (hyps : List InvestigationHypothesis),
      (InvestigationOrchestrator.investigationLoop (fun _ => "search index=main")
          (fun _ => Except.error "boom") none 0 idx hyps).length = hyps.length ∧
        ∀ st ∈ InvestigationOrchestrator.investigationLoop (fun _ => "search index=main")
          (fun _ => Except.error "boom") none 0 idx hyps, st.findings = []) ∧
      ∀ (n : Nat) (services : List String),
        InvestigationOrchestrator.upstreamLoop upstreamCatalog (fun h => h)
          (fun _ => Except.error "boom") (fun _ => []) none 0 n services = [] :=
  failed_query_step_semantics (fun _ => "search index=main") (fun h => h)
    upstreamCatalog (fun _ => []) none 0 "boom"
